import Mathlib

/-!
Verification model of the qtstream repository (Rust): a byte-level shallow
embedding of the QuickTime-stream protocol codec and state machine.

Bytes are modelled as natural numbers below 256 in little-endian lists.
Rust u8/u16/u32/u64 values are Nats with explicit bounds or explicit
reduction modulo 2^w where the source code truncates.  f64 fields never enter
any arithmetic in the verified claims; they are modelled by their IEEE-754
bit patterns (Nat < 2^64), which is exact for serialization round trips.

Fallible Rust code (std::io::Error results, expect/unwrap panics, index
out of bounds) is modelled with Except over an explicit error kind:
UnexpectedEof-kind errors, other io errors (InvalidData), and panics.

Sources embedded:
  src/qt_pkt.rs      (QTPacket cursor, nested-node extraction, reply builders)
  src/qt_value.rs    (QTValue tagged tree, as_qt_packet / from_qt_packet)
  src/coremedia/format_desc.rs (FormatDescriptor, AVC1)
  src/coremedia/audio_desc.rs  (AudioStreamDescription)
  src/coremedia/time.rs        (Time)
  src/coremedia/sample.rs      (SampleBuffer)
  src/qt.rs          (QuickTime::read reassembler, run dispatch, handlers)
-/

/-- Error kinds of the embedded fallible operations: io UnexpectedEof,
io InvalidData (and other io errors), and Rust panics (expect / unwrap /
index out of bounds / arithmetic underflow in debug builds). -/
inductive PErr where
  | eof
  | invalidData
  | panic
  deriving DecidableEq, Repr

/-- Little-endian byte decoding of a byte list (each element is one byte). -/
def fromLE : List Nat → Nat
  | [] => 0
  | b :: r => b + 256 * fromLE r

/-- Two little-endian bytes of a u16, as written by write_u16. -/
def toLE2 (n : Nat) : List Nat :=
  [n % 256, n / 256 % 256]

/-- Four little-endian bytes of a u32, as written by write_u32 (a u64 cast
to u32 first truncates, which the leading reduction modulo 256 after
division captures). -/
def toLE4 (n : Nat) : List Nat :=
  [n % 256, n / 256 % 256, n / 65536 % 256, n / 16777216 % 256]

/-- Eight little-endian bytes of a u64: low u32 then high u32. -/
def toLE8 (n : Nat) : List Nat :=
  toLE4 n ++ toLE4 (n / 4294967296)

/-- Cursor reads are modelled on the remaining byte list.  read_exact on a
Cursor fails with an UnexpectedEof io error when fewer than n bytes
remain. -/
def readExact (n : Nat) (l : List Nat) : Except PErr (List Nat × List Nat) :=
  if n ≤ l.length then .ok (l.take n, l.drop n) else .error .eof

/-- QTPacket::read_u8. -/
def readU8 (l : List Nat) : Except PErr (Nat × List Nat) :=
  match l with
  | [] => .error .eof
  | b :: r => .ok (b, r)

/-- QTPacket::read_u16 (little endian). -/
def readU16 (l : List Nat) : Except PErr (Nat × List Nat) :=
  match readExact 2 l with
  | .ok (b, r) => .ok (fromLE b, r)
  | .error e => .error e

/-- QTPacket::read_u32 (little endian). -/
def readU32 (l : List Nat) : Except PErr (Nat × List Nat) :=
  match readExact 4 l with
  | .ok (b, r) => .ok (fromLE b, r)
  | .error e => .error e

/-- QTPacket::read_u64 (little endian). -/
def readU64 (l : List Nat) : Except PErr (Nat × List Nat) :=
  match readExact 8 l with
  | .ok (b, r) => .ok (fromLE b, r)
  | .error e => .error e

/-- A read through a two-byte big-endian field (AVC1::from_vec uses
read_u16 with BigEndian for SPS/PPS lengths). -/
def readBE16 (l : List Nat) : Except PErr (Nat × List Nat) :=
  match l with
  | b0 :: b1 :: r => .ok (b0 * 256 + b1, r)
  | _ => .error .eof

/-- Maps any error of a fallible step to a panic, modelling .expect(..)
and .unwrap() on its result. -/
def expectE {α : Type} (x : Except PErr α) : Except PErr α :=
  match x with
  | .ok a => .ok a
  | .error _ => .error .panic

/-- QTPacket::as_bytes finalization: the packet buffer starts with a
4-byte placeholder; as_bytes patches it with the total length (the u64
stream length cast to u32, truncating) and yields the whole buffer.
The body is everything written after the placeholder. -/
def finalize (body : List Nat) : List Nat :=
  toLE4 (4 + body.length) ++ body

/-! Magic constants, from qt_pkt.rs / qt_value.rs / sample.rs / qt.rs. -/

def PACKET_MAGIC_PING : Nat := 0x70696E67
def PACKET_MAGIC_SYNC : Nat := 0x73796E63
def PACKET_MAGIC_ASYN : Nat := 0x6173796E
def PACKET_MAGIC_REPLY : Nat := 0x72706C79

def SYNC_PACKET_MAGIC_OG : Nat := 0x676F2120
def SYNC_PACKET_MAGIC_STOP : Nat := 0x73746F70
def SYNC_PACKET_MAGIC_SKEW : Nat := 0x736B6577
def SYNC_PACKET_MAGIC_AFMT : Nat := 0x61666D74
def SYNC_PACKET_MAGIC_TIME : Nat := 0x74696D65
def SYNC_PACKET_MAGIC_CLOK : Nat := 0x636C6F6B
def SYNC_PACKET_MAGIC_CVRP : Nat := 0x63767270
def SYNC_PACKET_MAGIC_CWPA : Nat := 0x63777061

def ASYN_PACKET_MAGIC_EAT : Nat := 0x65617421
def ASYN_PACKET_MAGIC_FEED : Nat := 0x66656564

def MAGIC_KEY_VALUE_PAIR : Nat := 0x6B657976
def MAGIC_KEY_STRING : Nat := 0x7374726B
def MAGIC_KEY_BOOLEAN : Nat := 0x62756C76
def MAGIC_KEY_DICTIONARY : Nat := 0x64696374
def MAGIC_KEY_DATA_VALUE : Nat := 0x64617476
def MAGIC_KEY_STRING_VALUE : Nat := 0x73747276
def MAGIC_KEY_NUMBER_VALUE : Nat := 0x6E6D6276
def MAGIC_KEY_IDX : Nat := 0x6964786B

def MAGIC_AUDIO_STREAM_DESCRIPTION : Nat := 0x61736264
def MAGIC_FORMAT_DESCRIPTOR : Nat := 0x66647363
def MAGIC_VIDEO_DIMENSION : Nat := 0x7664696D
def MAGIC_EXTENSION : Nat := 0x6578746E
def MAGIC_MEDIA_TYPE : Nat := 0x6D646961
def MAGIC_CODEC : Nat := 0x636F6463
def MEDIA_TYPE_VIDEO : Nat := 0x76696465
def MEDIA_TYPE_SOUND : Nat := 0x736F756E

def MAGIC_HPD1 : Nat := 0x68706431
def MAGIC_HPA1 : Nat := 0x68706131
def MAGIC_NEED : Nat := 0x6E656564

/-- coremedia/time.rs Time: value u64, scale u32, flags u32, epoch u64. -/
structure TimeM where
  value : Nat
  scale : Nat
  flags : Nat
  epoch : Nat
  deriving DecidableEq, Repr

/-- Time::as_bytes — 24 little-endian bytes. -/
def timeBytes (t : TimeM) : List Nat :=
  toLE8 t.value ++ toLE4 t.scale ++ toLE4 t.flags ++ toLE8 t.epoch

/-- Time::from_qt_packet — four reads, each .expect (panic on eof). -/
def parseTime (l : List Nat) : Except PErr (TimeM × List Nat) := do
  let (v, r1) ← expectE (readU64 l)
  let (s, r2) ← expectE (readU32 r1)
  let (f, r3) ← expectE (readU32 r2)
  let (e, r4) ← expectE (readU64 r3)
  .ok (⟨v, s, f, e⟩, r4)

/-- coremedia/audio_desc.rs AudioStreamDescription; the f64 sample_rate is
kept as its IEEE-754 bit pattern. -/
structure AudioStreamDescriptionM where
  sample_rate_bits : Nat
  format_id : Nat
  format_flags : Nat
  bytes_per_packet : Nat
  frames_per_packet : Nat
  bytes_per_frame : Nat
  channels_per_frame : Nat
  bits_per_channel : Nat
  reserved : Nat
  deriving DecidableEq, Repr

/-- AudioStreamDescription::from_qt_packet: one f64 then eight u32 reads,
each propagating io errors. -/
def parseASBD (l : List Nat) : Except PErr (AudioStreamDescriptionM × List Nat) := do
  let (sr, r1) ← readU64 l
  let (fid, r2) ← readU32 r1
  let (ffl, r3) ← readU32 r2
  let (bpp, r4) ← readU32 r3
  let (fpp, r5) ← readU32 r4
  let (bpf, r6) ← readU32 r5
  let (cpf, r7) ← readU32 r6
  let (bpc, r8) ← readU32 r7
  let (res, r9) ← readU32 r8
  .ok (⟨sr, fid, ffl, bpp, fpp, bpf, cpf, bpc, res⟩, r9)

/-- AudioStreamDescription::as_buffer: the nine fields followed by two
extra little-endian copies of sample_rate. -/
def asbdBuffer (a : AudioStreamDescriptionM) : List Nat :=
  toLE8 a.sample_rate_bits ++ toLE4 a.format_id ++ toLE4 a.format_flags ++
  toLE4 a.bytes_per_packet ++ toLE4 a.frames_per_packet ++ toLE4 a.bytes_per_frame ++
  toLE4 a.channels_per_frame ++ toLE4 a.bits_per_channel ++ toLE4 a.reserved ++
  toLE8 a.sample_rate_bits ++ toLE8 a.sample_rate_bits

/-- format_desc.rs AVC1 (parsed avcC box). -/
structure AVC1M where
  version : Nat
  avc_profile : Nat
  avc_compatibility : Nat
  avc_level : Nat
  nalu_len : Nat
  sps : Option (List Nat)
  pps : Option (List Nat)
  deriving DecidableEq, Repr

/-- One SPS or PPS loop of AVC1::from_vec: count entries, each a big-endian
u16 length followed by that many bytes; every iteration replaces the held
value, so only the last entry is kept (None when count is zero). -/
def readNaluLoop : Nat → List Nat → Option (List Nat) → Except PErr (Option (List Nat) × List Nat)
  | 0, l, acc => .ok (acc, l)
  | n + 1, l, _ => do
    let (len, r1) ← readBE16 l
    let (buf, r2) ← readExact len r1
    readNaluLoop n r2 (some buf)

/-- AVC1::from_vec. -/
def avc1FromVec (data : List Nat) : Except PErr AVC1M := do
  let (version, r1) ← readU8 data
  let (profile, r2) ← readU8 r1
  let (compat, r3) ← readU8 r2
  let (level, r4) ← readU8 r3
  let (nl, r5) ← readU8 r4
  let (sc, r6) ← readU8 r5
  let (sps, r7) ← readNaluLoop (sc &&& 0x1F) r6 none
  let (pc, r8) ← readU8 r7
  let (pps, _) ← readNaluLoop (pc &&& 0x1F) r8 none
  .ok ⟨version, profile, compat, level, (nl &&& 0x3) + 1, sps, pps⟩

/-- qt_value.rs QTValue.  Strings are modelled by their UTF-8 bytes,
f64 by its bit pattern.  The FormatDescriptor variant carries the fields
of coremedia/format_desc.rs FormatDescriptor inline (its extensions are
themselves QTValues). -/
inductive QTValueM where
  | StringKey (s : List Nat)
  | StringValue (s : List Nat)
  | Boolean (b : Bool)
  | KeyValuePair (k v : QTValueM)
  | Object (elems : List QTValueM)
  | Float (bits : Nat)
  | UInt32 (n : Nat)
  | UInt64 (n : Nat)
  | Data (d : List Nat)
  | IdxKey (n : Nat)
  | FormatDescriptor (media_type : Nat) (width height codec : Nat)
      (extensions : Option (List QTValueM)) (avc1 : Option AVC1M)
      (asbd : Option AudioStreamDescriptionM)

/-- coremedia/format_desc.rs FormatDescriptor as a standalone record (the
same data as the QTValueM.FormatDescriptor variant). -/
structure FormatDescriptorM where
  media_type : Nat
  video_dimension_width : Nat
  video_dimension_height : Nat
  codec : Nat
  extensions : Option (List QTValueM)
  avc1 : Option AVC1M
  audio_stream_basic_description : Option AudioStreamDescriptionM

/-- Assembles the finalized bytes of FormatDescriptor::as_qt_packet from
already-serialized extension bytes.  The writer nests everything inside
the single mdia node: for sound the asbd node is written into the mdia
packet, for video the codc and extn nodes are written into the vdim
packet which itself is written into the mdia packet.  For a media_type
outside sound/video the Rust writer returns an InvalidData error and for
sound without an AudioStreamDescription it panics on unwrap; this total
byte function returns [] in those cases and qtSerOk below records where
the Rust writer would fail instead. -/
def fdBytesCore (media_type w h codec : Nat) (extnBytes : Option (List Nat))
    (asbd : Option AudioStreamDescriptionM) : List Nat :=
  if media_type = MEDIA_TYPE_SOUND then
    match asbd with
    | some a =>
      finalize (toLE4 MAGIC_MEDIA_TYPE ++ toLE4 media_type ++
        finalize (toLE4 MAGIC_AUDIO_STREAM_DESCRIPTION ++ asbdBuffer a))
    | none => []
  else if media_type = MEDIA_TYPE_VIDEO then
    finalize (toLE4 MAGIC_MEDIA_TYPE ++ toLE4 media_type ++
      finalize (toLE4 MAGIC_VIDEO_DIMENSION ++ toLE4 w ++ toLE4 h ++
        finalize (toLE4 MAGIC_CODEC ++ toLE4 codec) ++
        (match extnBytes with
         | some eb => finalize (toLE4 MAGIC_EXTENSION ++ eb)
         | none => [])))
  else []

mutual

/-- QTValue::as_qt_packet followed by as_bytes: the finalized bytes of one
serialized node, [u32 len][u32 magic][body].  Number subtypes: Float
writes 6, UInt32 writes 3, UInt64 writes 4.  The FormatDescriptor arm
writes the nested format-descriptor bytes (see fdBytesCore). -/
def serQT : QTValueM → List Nat
  | .StringKey s => finalize (toLE4 MAGIC_KEY_STRING ++ s)
  | .StringValue s => finalize (toLE4 MAGIC_KEY_STRING_VALUE ++ s)
  | .Boolean b => finalize (toLE4 MAGIC_KEY_BOOLEAN ++ [if b then 1 else 0])
  | .KeyValuePair k v => finalize (toLE4 MAGIC_KEY_VALUE_PAIR ++ serQT k ++ serQT v)
  | .Object elems => finalize (toLE4 MAGIC_KEY_DICTIONARY ++ serList elems)
  | .Float bits => finalize (toLE4 MAGIC_KEY_NUMBER_VALUE ++ [6] ++ toLE8 bits)
  | .UInt32 n => finalize (toLE4 MAGIC_KEY_NUMBER_VALUE ++ [3] ++ toLE4 n)
  | .UInt64 n => finalize (toLE4 MAGIC_KEY_NUMBER_VALUE ++ [4] ++ toLE8 n)
  | .Data d => finalize (toLE4 MAGIC_KEY_DATA_VALUE ++ d)
  | .IdxKey n => finalize (toLE4 MAGIC_KEY_IDX ++ toLE2 n)
  | .FormatDescriptor mt w h c exts _avc asbd =>
    finalize (toLE4 MAGIC_FORMAT_DESCRIPTOR ++ fdBytesCore mt w h c (serExts exts) asbd)

/-- Concatenated finalized nodes of a list of QTValues (Object body,
extension list body). -/
def serList : List QTValueM → List Nat
  | [] => []
  | v :: l => serQT v ++ serList l

/-- serList under Option, for the extensions field. -/
def serExts : Option (List QTValueM) → Option (List Nat)
  | some l => some (serList l)
  | none => none

end

mutual

/-- True when QTValue::as_qt_packet returns Ok without panicking: the only
failure points are a FormatDescriptor whose media_type is neither sound
nor video (io InvalidData) or a sound descriptor without an
AudioStreamDescription (unwrap panic), possibly nested inside pairs,
dictionaries or extension lists. -/
def qtSerOk : QTValueM → Bool
  | .KeyValuePair k v => qtSerOk k && qtSerOk v
  | .Object elems => qtSerOkList elems
  | .FormatDescriptor mt _ _ _ exts _ asbd =>
    (if mt = MEDIA_TYPE_SOUND then asbd.isSome
     else mt = MEDIA_TYPE_VIDEO) &&
    (match exts with
     | some l => qtSerOkList l
     | none => true)
  | _ => true

/-- qtSerOk over every element of a list. -/
def qtSerOkList : List QTValueM → Bool
  | [] => true
  | v :: l => qtSerOk v && qtSerOkList l

end

/-- FormatDescriptor::as_qt_packet followed by as_bytes, on the record
form: finalized bytes of the whole descriptor (the mdia node). -/
def serFD (fd : FormatDescriptorM) : List Nat :=
  fdBytesCore fd.media_type fd.video_dimension_width fd.video_dimension_height
    fd.codec (fd.extensions.map serList) fd.audio_stream_basic_description

/-- FormatDescriptor::as_qt_packet with its failure behaviour: Ok with the
finalized bytes exactly when serialization succeeds (see qtSerOk); the
Rust error kinds (InvalidData for a bad media type, panic for a missing
sound description, errors propagated from nested extension descriptors)
are collapsed to a single InvalidData here since no claim observes the
kind. -/
def serFDE (fd : FormatDescriptorM) : Except PErr (List Nat) :=
  if qtSerOk (.FormatDescriptor fd.media_type fd.video_dimension_width
      fd.video_dimension_height fd.codec fd.extensions fd.avc1
      fd.audio_stream_basic_description) then
    .ok (serFD fd)
  else .error .invalidData

/-- The UTF-8 acceptance test of Rust String::from_utf8, on byte lists
(the standard RFC 3629 byte-sequence grammar). -/
def validUtf8 : List Nat → Bool
  | [] => true
  | c :: r =>
    if c < 0x80 then validUtf8 r
    else if c < 0xC2 then false
    else if c ≤ 0xDF then
      match r with
      | c1 :: r1 => (0x80 ≤ c1 && c1 ≤ 0xBF) && validUtf8 r1
      | [] => false
    else if c ≤ 0xEF then
      match r with
      | c1 :: c2 :: r2 =>
        (if c = 0xE0 then 0xA0 ≤ c1 && c1 ≤ 0xBF
         else if c = 0xED then 0x80 ≤ c1 && c1 ≤ 0x9F
         else 0x80 ≤ c1 && c1 ≤ 0xBF) &&
        (0x80 ≤ c2 && c2 ≤ 0xBF) && validUtf8 r2
      | _ => false
    else if c ≤ 0xF4 then
      match r with
      | c1 :: c2 :: c3 :: r3 =>
        (if c = 0xF0 then 0x90 ≤ c1 && c1 ≤ 0xBF
         else if c = 0xF4 then 0x80 ≤ c1 && c1 ≤ 0x8F
         else 0x80 ≤ c1 && c1 ≤ 0xBF) &&
        (0x80 ≤ c2 && c2 ≤ 0xBF) && (0x80 ≤ c3 && c3 ≤ 0xBF) && validUtf8 r3
      | _ => false
    else false

/-- QTPacket::from_qt_packet: reads a u32 length and extracts the next
len - 4 bytes as the content of a nested packet (whose zeroed 4-byte
header and cursor position 4 make exactly that content readable).  A zero
length yields an empty nested packet; a length of 1..3 panics in Rust
when slicing buffer[4..] of the shorter allocation.  The source also
compares the length against the total enclosing buffer size before
extracting; that check can only fire when the remaining bytes are also
too short, and it raises the same UnexpectedEof kind, so the remaining-
bytes model subsumes it. -/
def readNode (l : List Nat) : Except PErr (List Nat × List Nat) :=
  match readU32 l with
  | .error e => .error e
  | .ok (len, r) =>
    if len = 0 then .ok ([], r)
    else if len < 4 then .error .panic
    else readExact (len - 4) r

/-- QTPacket::from_qt_packet_with_magic: nested node whose first u32 must
equal the expected magic (InvalidData otherwise); yields the content
after the magic. -/
def readNodeMagic (expected : Nat) (l : List Nat) : Except PErr (List Nat × List Nat) :=
  match readNode l with
  | .error e => .error e
  | .ok (content, rest) =>
    match readU32 content with
    | .error e => .error e
    | .ok (m, c2) => if m = expected then .ok (c2, rest) else .error .invalidData

/-- QTPacket::read_qt_packet_with_magic: nested node plus its magic, with
no comparison. -/
def readNodeWithMagic (l : List Nat) : Except PErr ((List Nat × Nat) × List Nat) :=
  match readNode l with
  | .error e => .error e
  | .ok (content, rest) =>
    match readU32 content with
    | .error e => .error e
    | .ok (m, c2) => .ok ((c2, m), rest)

/-- The avc1 scan applied to each parsed extension value in
FormatDescriptor::from_qt_packet: a KeyValuePair keyed IdxKey(49) must
hold an Object (as_vec().expect) whose first element is a KeyValuePair
(expect) with an IdxKey key (expect); when that key is 105 its value must
be Data (expect) and is decoded by AVC1::from_vec (errors propagate).
Every other shape of extension leaves the accumulator unchanged. -/
def extScan (v : QTValueM) (avc : Option AVC1M) : Except PErr (Option AVC1M) :=
  match v with
  | .KeyValuePair (.IdxKey 49) value =>
    match value with
    | .Object [] => .ok avc
    | .Object (first :: _) =>
      match first with
      | .KeyValuePair (.IdxKey idx2) v2 =>
        if idx2 = 105 then
          match v2 with
          | .Data d =>
            match avc1FromVec d with
            | .ok a => .ok (some a)
            | .error e => .error e
          | _ => .error .panic
        else .ok avc
      | .KeyValuePair _ _ => .error .panic
      | _ => .error .panic
    | _ => .ok avc
  | _ => .ok avc

/-- The dictionary body loop of QTValue::from_qt_packet: parse values from
the nested buffer until one fails; an UnexpectedEof ends the loop
successfully with the values collected so far, any other error
propagates.  (The loop body also re-serializes each parsed value into a
scratch buffer that is immediately dropped; for any value this parser can
produce that re-serialization succeeds, so the dead computation is
omitted.)  The iteration count is fuel; every successful parse consumes
at least eight bytes, so a fuel of length + 1 never runs out. -/
def parseListUntilEof (p : List Nat → Except PErr (QTValueM × List Nat)) :
    Nat → List Nat → Except PErr (List QTValueM)
  | 0, _ => .error .eof
  | f + 1, l =>
    match p l with
    | .ok (v, rest) =>
      match parseListUntilEof p f rest with
      | .ok items => .ok (v :: items)
      | .error e => .error e
    | .error .eof => .ok []
    | .error e => .error e

/-- The extension loop of FormatDescriptor::from_qt_packet (video arm):
like the dictionary loop, but each parsed value is scanned for the
avcC payload (see extScan) before being appended. -/
def parseExtItems (p : List Nat → Except PErr (QTValueM × List Nat)) :
    Nat → List Nat → List QTValueM → Option AVC1M →
    Except PErr (List QTValueM × Option AVC1M)
  | 0, _, _, _ => .error .eof
  | f + 1, l, acc, avc =>
    match p l with
    | .error .eof => .ok (acc.reverse, avc)
    | .error e => .error e
    | .ok (v, rest) =>
      match extScan v avc with
      | .error e => .error e
      | .ok avc2 => parseExtItems p f rest (v :: acc) avc2

/-- FormatDescriptor::from_qt_packet, parameterized by the QT-value parser
used for extensions.  It reads the mdia node and the media type from
inside it, then reads the following nodes (asbd, or vdim / codc / extn)
as siblings from the enclosing stream. -/
def parseFDCore (p : List Nat → Except PErr (QTValueM × List Nat))
    (l : List Nat) : Except PErr (FormatDescriptorM × List Nat) := do
  let (mdiaC, r1) ← readNodeMagic MAGIC_MEDIA_TYPE l
  let (mediaType, _) ← readU32 mdiaC
  if mediaType = MEDIA_TYPE_SOUND then do
    let (asbdC, r2) ← readNodeMagic MAGIC_AUDIO_STREAM_DESCRIPTION r1
    let (asd, _) ← parseASBD asbdC
    .ok (⟨MEDIA_TYPE_SOUND, 0, 0, 0, none, none, some asd⟩, r2)
  else if mediaType = MEDIA_TYPE_VIDEO then do
    let (vdimC, r2) ← readNodeMagic MAGIC_VIDEO_DIMENSION r1
    let (w, vc1) ← readU32 vdimC
    let (h, _) ← readU32 vc1
    let (codcC, r3) ← readNodeMagic MAGIC_CODEC r2
    let (codec, _) ← readU32 codcC
    let (extnC, r4) ← readNodeMagic MAGIC_EXTENSION r3
    let (exts, avc) ← parseExtItems p (extnC.length + 1) extnC [] none
    .ok (⟨MEDIA_TYPE_VIDEO, w, h, codec, some exts, avc, none⟩, r4)
  else .error .invalidData

/-- The dispatch of QTValue::from_qt_packet after the [u32 len][u32 magic]
header has been read: keyv, dict and fdsc recurse through the given
parser, every other magic consumes len - 8 body bytes (a panic on the
len - 8 subtraction or indexing when len is less than 8 resp. when the
body is shorter than the subtype needs).  The strv arm rebuilding a
StringKey reproduces the source verbatim. -/
def parseQTValueCore (recurse : List Nat → Except PErr (QTValueM × List Nat))
    (len magic : Nat) (r2 : List Nat) : Except PErr (QTValueM × List Nat) :=
  if magic = MAGIC_KEY_VALUE_PAIR then
    match recurse r2 with
    | .error e => .error e
    | .ok (k, r3) =>
      match recurse r3 with
      | .error e => .error e
      | .ok (v, r4) => .ok (.KeyValuePair k v, r4)
  else if magic = MAGIC_KEY_DICTIONARY then
    if len < 8 then .error .panic
    else
      match readExact (len - 8) r2 with
      | .error e => .error e
      | .ok (data, r3) =>
        match parseListUntilEof recurse (data.length + 1) data with
        | .error e => .error e
        | .ok items => .ok (.Object items, r3)
  else if magic = MAGIC_FORMAT_DESCRIPTOR then
    match parseFDCore recurse r2 with
    | .error e => .error e
    | .ok (fd, r3) =>
      .ok (.FormatDescriptor fd.media_type fd.video_dimension_width
        fd.video_dimension_height fd.codec fd.extensions fd.avc1
        fd.audio_stream_basic_description, r3)
  else
    if len < 8 then .error .panic
    else
      match readExact (len - 8) r2 with
      | .error e => .error e
      | .ok (data, r3) =>
        if magic = MAGIC_KEY_STRING then
          if validUtf8 data then .ok (.StringKey data, r3) else .error .invalidData
        else if magic = MAGIC_KEY_STRING_VALUE then
          if validUtf8 data then .ok (.StringKey data, r3) else .error .invalidData
        else if magic = MAGIC_KEY_BOOLEAN then
          match data with
          | [] => .error .panic
          | d :: _ =>
            if d = 0 then .ok (.Boolean false, r3)
            else if d = 1 then .ok (.Boolean true, r3)
            else .error .invalidData
        else if magic = MAGIC_KEY_DATA_VALUE then .ok (.Data data, r3)
        else if magic = MAGIC_KEY_NUMBER_VALUE then
          match data with
          | [] => .error .panic
          | d :: ds =>
            if d = 6 then
              if 8 ≤ ds.length then .ok (.Float (fromLE (ds.take 8)), r3)
              else .error .panic
            else if d = 5 then
              if 4 ≤ ds.length then .ok (.UInt32 (fromLE (ds.take 4)), r3)
              else .error .panic
            else if d = 4 then
              if 8 ≤ ds.length then .ok (.UInt64 (fromLE (ds.take 8)), r3)
              else .error .panic
            else if d = 3 then
              if 4 ≤ ds.length then .ok (.UInt32 (fromLE (ds.take 4)), r3)
              else .error .panic
            else .error .invalidData
        else if magic = MAGIC_KEY_IDX then
          if 2 ≤ data.length then .ok (.IdxKey (fromLE (data.take 2)), r3)
          else .error .panic
        else .error .invalidData

/-- QTValue::from_qt_packet with a recursion-depth fuel (the Rust function
recurses on the heap; any fuel at least the node count of the value
behaves identically to it).  Reads [u32 len][u32 magic], then dispatches
(see parseQTValueCore). -/
def parseQTValue : Nat → List Nat → Except PErr (QTValueM × List Nat)
  | 0, _ => .error .eof
  | fuel + 1, l =>
    match readU32 l with
    | .error e => .error e
    | .ok (len, r1) =>
      match readU32 r1 with
      | .error e => .error e
      | .ok (magic, r2) => parseQTValueCore (parseQTValue fuel) len magic r2

/-- FormatDescriptor::from_qt_packet as a standalone entry point, with a
fuel bound for the QT-values inside extensions. -/
def parseFD (fuel : Nat) (l : List Nat) : Except PErr (FormatDescriptorM × List Nat) :=
  parseFDCore (parseQTValue fuel) l

/-- QTValue::from_qt_packet at the top level: the fuel bytes.length + 1
always exceeds the node count of any value serialized in bytes, so this
equals the unbounded Rust recursion on those inputs. -/
def parseQTValueTop (bytes : List Nat) : Except PErr (QTValueM × List Nat) :=
  parseQTValue (bytes.length + 1) bytes

/-- coremedia/sample.rs SampleTimingInfo: three Times. -/
structure SampleTimingInfoM where
  duration : TimeM
  presentation_time_stamp : TimeM
  decode_time_stamp : TimeM
  deriving DecidableEq, Repr

/-- The stia loop: triples of Times while the nested buffer has bytes
left; each Time read panics when bytes run short.  Every iteration
consumes 72 bytes, so a fuel of length + 1 never runs out. -/
def parseStiaLoop : Nat → List Nat → Except PErr (List SampleTimingInfoM)
  | 0, _ => .error .eof
  | f + 1, l =>
    if l = [] then .ok []
    else do
      let (d, r1) ← parseTime l
      let (pts, r2) ← parseTime r1
      let (dts, r3) ← parseTime r2
      let rest ← parseStiaLoop f r3
      .ok (⟨d, pts, dts⟩ :: rest)

/-- The ssiz loop: u32s while the nested buffer has bytes left, each read
wrapped in .expect. -/
def parseU32Loop : Nat → List Nat → Except PErr (List Nat)
  | 0, _ => .error .eof
  | f + 1, l =>
    if l = [] then .ok []
    else
      match readU32 l with
      | .ok (n, r) =>
        match parseU32Loop f r with
        | .ok ns => .ok (n :: ns)
        | .error e => .error e
      | .error _ => .error .panic

/-- The satt / sary loops: QT-values while the nested buffer has bytes
left; each element parse is wrapped in .expect (panic on any error). -/
def parseQTListExact (p : List Nat → Except PErr (QTValueM × List Nat)) :
    Nat → List Nat → Except PErr (List QTValueM)
  | 0, _ => .error .eof
  | f + 1, l =>
    if l = [] then .ok []
    else
      match p l with
      | .ok (v, rest) =>
        match parseQTListExact p f rest with
        | .ok vs => .ok (v :: vs)
        | .error e => .error e
      | .error _ => .error .panic

/-- coremedia/sample.rs SampleBuffer. -/
structure SampleBufferM where
  output_presentation_time_stamp : Option TimeM
  format_description : Option FormatDescriptorM
  num_samples : Nat
  sample_timing_info_array : Option (List SampleTimingInfoM)
  sample_data : Option (List Nat)
  sample_sizes : Option (List Nat)
  attachments : Option (List QTValueM)
  sary : Option (List QTValueM)
  media_type : Nat

/-- SampleBuffer::new. -/
def newSampleBuffer (media_type : Nat) : SampleBufferM :=
  ⟨none, none, 0, none, none, none, none, none, media_type⟩

def MAGIC_SBUF : Nat := 0x73627566
def MAGIC_OPTS : Nat := 0x6F707473
def MAGIC_STIA : Nat := 0x73746961
def MAGIC_SDAT : Nat := 0x73646174
def MAGIC_SATT : Nat := 0x73617474
def MAGIC_SARY : Nat := 0x73617279
def MAGIC_SSIZ : Nat := 0x7373697A
def MAGIC_NSMP : Nat := 0x6E736D70
def MAGIC_FREE : Nat := 0x66726565

/-- The child loop of SampleBuffer::from_qt_packet: while the sbuf buffer
has bytes left, read one nested node with its magic and dispatch on it;
unknown magics are logged and skipped.  qtFuel bounds the recursion depth
of nested QT-values; the loop fuel is the first argument and every
iteration consumes at least four bytes. -/
def parseSBChildren (qtFuel : Nat) : Nat → List Nat → SampleBufferM → Except PErr SampleBufferM
  | 0, _, _ => .error .eof
  | f + 1, l, sb =>
    if l = [] then .ok sb
    else
      match readNodeWithMagic l with
      | .error e => .error e
      | .ok ((content, magic), rest) =>
        if magic = MAGIC_OPTS then
          match parseTime content with
          | .error e => .error e
          | .ok (t, _) =>
            parseSBChildren qtFuel f rest
              { sb with output_presentation_time_stamp := some t }
        else if magic = MAGIC_STIA then
          match parseStiaLoop (content.length + 1) content with
          | .error e => .error e
          | .ok arr =>
            parseSBChildren qtFuel f rest
              { sb with sample_timing_info_array := some arr }
        else if magic = MAGIC_SDAT then
          parseSBChildren qtFuel f rest { sb with sample_data := some content }
        else if magic = MAGIC_NSMP then
          match expectE (readU32 content) with
          | .error e => .error e
          | .ok (n, _) => parseSBChildren qtFuel f rest { sb with num_samples := n }
        else if magic = MAGIC_SSIZ then
          match parseU32Loop (content.length + 1) content with
          | .error e => .error e
          | .ok arr => parseSBChildren qtFuel f rest { sb with sample_sizes := some arr }
        else if magic = MAGIC_FORMAT_DESCRIPTOR then
          match expectE (parseFD qtFuel content) with
          | .error e => .error e
          | .ok (fd, _) =>
            parseSBChildren qtFuel f rest { sb with format_description := some fd }
        else if magic = MAGIC_SATT then
          match parseQTListExact (parseQTValue qtFuel) (content.length + 1) content with
          | .error e => .error e
          | .ok arr => parseSBChildren qtFuel f rest { sb with attachments := some arr }
        else if magic = MAGIC_SARY then
          match parseQTListExact (parseQTValue qtFuel) (content.length + 1) content with
          | .error e => .error e
          | .ok arr => parseSBChildren qtFuel f rest { sb with sary := some arr }
        else if magic = MAGIC_FREE then
          parseSBChildren qtFuel f rest sb
        else
          parseSBChildren qtFuel f rest sb

/-- SampleBuffer::from_qt_packet: the sbuf wrapper node is read with
.expect (panic on any failure), then the children are consumed until the
wrapper is exhausted.  The media type is the caller's argument, stored
unchanged. -/
def parseSampleBuffer (qtFuel : Nat) (l : List Nat) (media_type : Nat) :
    Except PErr SampleBufferM :=
  match expectE (readNodeMagic MAGIC_SBUF l) with
  | .error e => .error e
  | .ok (content, _) =>
    parseSBChildren qtFuel (content.length + 1) content (newSampleBuffer media_type)

/-! The frame reassembler, QuickTime::read (src/qt.rs lines 91-150).
One call appends one bulk chunk to the pool, then reads the u32 length at
the pool start (an io error if fewer than four bytes are pooled), and if
the pool holds that many bytes splits them off as one packet — at most
one packet per call.  QTPacket::from_bytes indexes the first four bytes
of the split-off data, a panic when the length field is below four. -/

/-- Result of one QuickTime::read call: an io error returned to the
caller, a Rust panic, no packet yet (with the new pool), or one packet
(with the remaining pool). -/
inductive ReadRes where
  | ioError
  | panicked
  | noPacket (pool : List Nat)
  | packet (pkt : List Nat) (pool : List Nat)
  deriving DecidableEq, Repr

/-- One QuickTime::read call on a non-empty bulk chunk. -/
def qtReadStep (pool chunk : List Nat) : ReadRes :=
  let ap := pool ++ chunk
  if ap.length < 4 then .ioError
  else
    let want := fromLE (ap.take 4)
    if want ≤ ap.length then
      if want < 4 then .panicked
      else .packet (ap.take want) (ap.drop want)
    else .noPacket ap

/-- Feeding chunks one per QuickTime::read call, collecting the packets
produced; an io error or panic aborts the run (in run() it ends the
session).  Returns the packets in order and the final pool. -/
def runChunks (pool : List Nat) : List (List Nat) → Except PErr (List (List Nat) × List Nat)
  | [] => .ok ([], pool)
  | c :: cs =>
    match qtReadStep pool c with
    | .ioError => .error .eof
    | .panicked => .error .panic
    | .noPacket p2 => runChunks p2 cs
    | .packet pkt p2 =>
      match runChunks p2 cs with
      | .ok (pkts, fin) => .ok (pkt :: pkts, fin)
      | .error e => .error e

/-- A well-formed length-prefixed packet: at least the four length bytes,
representable in u32, and its first four bytes encode its own length. -/
def wellFormedPacket (p : List Nat) : Prop :=
  4 ≤ p.length ∧ p.length < 4294967296 ∧ p.take 4 = toLE4 p.length

/-! The run() dispatch on the outer magic (src/qt.rs lines 512-546). -/

/-- How run() handles one reassembled packet: the u32 at offset 4 is the
outer magic; a ping packet is rewound and written back whole (as_bytes
re-patches its length header first), sync and asyn packets go to their
handlers, anything else is only logged. -/
inductive RunAction where
  | readError
  | ping (echo : List Nat)
  | syncPkt
  | asynPkt
  | unknown
  deriving DecidableEq, Repr

/-- Classification and (for ping) the exact bytes written back, from one
iteration of QuickTime::run. -/
def runStepAction (pkt : List Nat) : RunAction :=
  match readU32 (pkt.drop 4) with
  | .error _ => .readError
  | .ok (magic, _) =>
    if magic = PACKET_MAGIC_PING then .ping (toLE4 pkt.length ++ pkt.drop 4)
    else if magic = PACKET_MAGIC_SYNC then .syncPkt
    else if magic = PACKET_MAGIC_ASYN then .asynPkt
    else .unknown

/-! Reply and ASYN packet builders (src/qt_pkt.rs). -/

/-- reply_packet body: magic rply, the correlation id as u64, and a u32
zero pad, written after the length placeholder. -/
def replyPacketBody (correlation_id : Nat) : List Nat :=
  toLE4 PACKET_MAGIC_REPLY ++ toLE8 correlation_id ++ toLE4 0

/-- reply_packet_with_clock_ref body: reply_packet then a u64 clock_ref. -/
def replyClockBody (correlation_id clock_ref : Nat) : List Nat :=
  replyPacketBody correlation_id ++ toLE8 clock_ref

/-- QTPacketASYN::as_qt_packet, finalized: magic asyn, u64 header, u32
sub-type mark, then optionally the finalized bytes of a QT-value
payload. -/
def asynPacketBytes (payload : Option (List Nat)) (sub_type_mark type_header : Nat) :
    List Nat :=
  finalize (toLE4 PACKET_MAGIC_ASYN ++ toLE8 type_header ++ toLE4 sub_type_mark ++
    (match payload with
     | some b => b
     | none => []))

/-- QTPacketOG::reply_packet, finalized: the reply header and a u32 zero
body. -/
def ogReply (correlation_id : Nat) : List Nat :=
  finalize (replyPacketBody correlation_id ++ toLE4 0)

/-- QTPacketSTOP::reply_packet, finalized. -/
def stopReply (correlation_id : Nat) : List Nat :=
  finalize (replyPacketBody correlation_id ++ toLE4 0)

/-- QTPacketCLOCK::reply_packet (also QTPacketCWPA / QTPacketCVRP), the
plain clock-ref reply, finalized. -/
def clockRefReply (correlation_id clock_ref : Nat) : List Nat :=
  finalize (replyClockBody correlation_id clock_ref)

/-- QTPacketTIME::reply_packet, finalized: reply header then the 24 Time
bytes. -/
def timeReply (correlation_id : Nat) (t : TimeM) : List Nat :=
  finalize (replyPacketBody correlation_id ++ timeBytes t)

/-- QTPacketSKEW::reply_packet, finalized: reply header then the f64 skew
written as its eight little-endian pattern bytes. -/
def skewReply (correlation_id skew_bits : Nat) : List Nat :=
  finalize (replyPacketBody correlation_id ++ toLE8 skew_bits)

/-- The dictionary sent by QTPacketAFMT::reply_packet:
one pair StringKey "Error" to UInt32 0 ("Error" is bytes 45 72 72 6F 72). -/
def afmtErrorDict : QTValueM :=
  .Object [.KeyValuePair (.StringKey [0x45, 0x72, 0x72, 0x6F, 0x72]) (.UInt32 0)]

/-- QTPacketAFMT::reply_packet, finalized: reply header then the
serialized error dictionary. -/
def afmtReply (correlation_id : Nat) : List Nat :=
  finalize (replyPacketBody correlation_id ++ serQT afmtErrorDict)

/-! Host-advertised device-info values (src/qt_device.rs).  The f64
literals appear as their IEEE-754 bit patterns:
1920.0 = 0x409E000000000000, 1200.0 = 0x4092C00000000000,
0.07300000000000001 = 0x3FB2B020C49BA5E4, 0.04 = 0x3FA47AE147AE147B,
48000.0 = 0x40E7700000000000.  String keys are their ASCII bytes. -/

/-- ASCII bytes of a Lean string literal, to transcribe the Rust string
constants. -/
def asciiBytes (s : String) : List Nat :=
  s.data.map Char.toNat

/-- AudioStreamDescription::default(): 48 kHz LPCM, flags 12, 1 byte and
frame per packet pair, 4 bytes per frame, 2 channels, 16 bits. -/
def defaultASBD : AudioStreamDescriptionM :=
  ⟨0x40E7700000000000, 0x6C70636D, 12, 1, 1, 4, 2, 16, 0⟩

/-- qt_hpd1_device_info(): the display dictionary. -/
def hpd1DeviceInfo : QTValueM :=
  .Object
    [ .KeyValuePair (.StringKey (asciiBytes "Valeria")) (.Boolean true),
      .KeyValuePair (.StringKey (asciiBytes "HEVCDecoderSupports444")) (.Boolean true),
      .KeyValuePair (.StringKey (asciiBytes "DisplaySize"))
        (.Object
          [ .KeyValuePair (.StringKey (asciiBytes "Width")) (.Float 0x409E000000000000),
            .KeyValuePair (.StringKey (asciiBytes "Height")) (.Float 0x4092C00000000000) ])
    ]

/-- qt_hpa1_device_info(): the audio dictionary; formats holds the default
AudioStreamDescription buffer (including its two trailing sample-rate
copies). -/
def hpa1DeviceInfo : QTValueM :=
  .Object
    [ .KeyValuePair (.StringKey (asciiBytes "BufferAheadInterval")) (.Float 0x3FB2B020C49BA5E4),
      .KeyValuePair (.StringKey (asciiBytes "deviceUID")) (.StringValue (asciiBytes "Valeria")),
      .KeyValuePair (.StringKey (asciiBytes "ScreenLatency")) (.Float 0x3FA47AE147AE147B),
      .KeyValuePair (.StringKey (asciiBytes "formats")) (.Data (asbdBuffer defaultASBD)),
      .KeyValuePair (.StringKey (asciiBytes "EDIDAC3Support")) (.UInt32 0),
      .KeyValuePair (.StringKey (asciiBytes "deviceName")) (.StringValue (asciiBytes "Valeria"))
    ]

/-- EMPTY_CF_TYPE (src/qt.rs). -/
def EMPTY_CF_TYPE : Nat := 1

/-- The hpd1 ASYN packet written during cwpa handling (header is
EMPTY_CF_TYPE). -/
def hpd1PacketBytes : List Nat :=
  asynPacketBytes (some (serQT hpd1DeviceInfo)) MAGIC_HPD1 EMPTY_CF_TYPE

/-- The hpa1 ASYN packet written during cwpa handling (header is the
device clock ref of the request). -/
def hpa1PacketBytes (device_clock_ref : Nat) : List Nat :=
  asynPacketBytes (some (serQT hpa1DeviceInfo)) MAGIC_HPA1 device_clock_ref

/-- The asyn need packet: no payload, header is the clock ref. -/
def needPacketBytes (clock_ref : Nat) : List Nat :=
  asynPacketBytes none MAGIC_NEED clock_ref

/-- The cwpa reply: clock-ref reply for device_clock_ref + 1000 with the
already-written hpd1 packet bytes appended after it. -/
def cwpaReply (correlation_id device_clock_ref : Nat) : List Nat :=
  finalize (replyClockBody correlation_id ((device_clock_ref + 1000) % 18446744073709551616) ++
    hpd1PacketBytes)

/-! The protocol state machine handlers (src/qt.rs). -/

/-- coremedia/clock.rs Clock, created by Clock::new_with_host_time: id,
nanosecond scale, factor 1.0 (bit pattern kept for completeness); the
wall-clock epoch instant is an external input and is not stored. -/
structure ClockM where
  id : Nat
  time_scale : Nat
  factor_bits : Nat
  deriving DecidableEq, Repr

/-- Clock::new_with_host_time. -/
def newClockWithHostTime (id : Nat) : ClockM :=
  ⟨id, 1000000000, 0x3FF0000000000000⟩

/-- External inputs of one handle_sync_pkt step that the Rust code reads
from the environment: the host clock's current Time for the time arm
(none when self.clock is None, which panics there), whether the four skew
reference times are recorded (their absence panics in the skew arm), and
the f64 skew value produced by Clock::calculate_skew, passed through as
its bit pattern (the IEEE-754 arithmetic itself is outside this model;
no claim depends on the value). -/
structure SyncCtx where
  hostClockTime : Option TimeM
  skewTimesRecorded : Bool
  skewBits : Nat

/-- State changes and writes of one handle_sync_pkt step. -/
structure SyncOut where
  writes : List (List Nat)
  clock : Option ClockM := none
  localAudioClock : Option ClockM := none
  deviceAudioClock : Option Nat := none
  needClockRef : Option Nat := none

/-- QuickTime::handle_sync_pkt: dispatch on the inner magic with the
payload positioned after clock_ref, magic and correlation id.  qtFuel
bounds the cvrp payload QT-value recursion. -/
def handleSyncPkt (qtFuel : Nat) (ctx : SyncCtx) (clock_ref correlation_id magic : Nat)
    (payload : List Nat) : Except PErr SyncOut :=
  if magic = SYNC_PACKET_MAGIC_OG then
    match readU32 payload with
    | .error e => .error e
    | .ok _ => .ok { writes := [ogReply correlation_id] }
  else if magic = SYNC_PACKET_MAGIC_CWPA then
    match readU64 payload with
    | .error e => .error e
    | .ok (dcr, _) =>
      .ok { writes := [hpd1PacketBytes, cwpaReply correlation_id dcr, hpa1PacketBytes dcr],
            localAudioClock := some (newClockWithHostTime ((dcr + 1000) % 18446744073709551616)),
            deviceAudioClock := some dcr }
  else if magic = SYNC_PACKET_MAGIC_CVRP then
    match readU64 payload with
    | .error e => .error e
    | .ok (dcr, r1) =>
      match parseQTValue qtFuel r1 with
      | .error e => .error e
      | .ok _ =>
        .ok { writes := [needPacketBytes dcr,
                clockRefReply correlation_id ((dcr + 0x1000AF) % 18446744073709551616)],
              needClockRef := some dcr }
  else if magic = SYNC_PACKET_MAGIC_CLOK then
    let host_time := (clock_ref + 0x10000) % 18446744073709551616
    .ok { writes := [clockRefReply correlation_id host_time],
          clock := some (newClockWithHostTime host_time) }
  else if magic = SYNC_PACKET_MAGIC_TIME then
    match ctx.hostClockTime with
    | none => .error .panic
    | some t =>
      let _reply := timeReply correlation_id t
      .ok { writes := [] }
  else if magic = SYNC_PACKET_MAGIC_AFMT then
    match parseASBD payload with
    | .error e => .error e
    | .ok _ => .ok { writes := [afmtReply correlation_id] }
  else if magic = SYNC_PACKET_MAGIC_SKEW then
    if ctx.skewTimesRecorded then
      .ok { writes := [skewReply correlation_id ctx.skewBits] }
    else .error .panic
  else if magic = SYNC_PACKET_MAGIC_STOP then
    .ok { writes := [stopReply correlation_id] }
  else .ok { writes := [] }

/-- The feed arm of QuickTime::handle_asyn_pkt: parse the payload as a
video SampleBuffer, write one asyn need packet whose header is the
recorded need_clock_ref (a panic when none was recorded), and send the
buffer on the consumer channel.  Returns the writes and the sent
buffers. -/
def handleAsynFeed (qtFuel : Nat) (need_clock_ref : Option Nat) (payload : List Nat) :
    Except PErr (List (List Nat) × List SampleBufferM) :=
  match parseSampleBuffer qtFuel payload MEDIA_TYPE_VIDEO with
  | .error e => .error e
  | .ok sb =>
    match need_clock_ref with
    | none => .error .panic
    | some ncr => .ok ([needPacketBytes ncr], [sb])

/-- The audio-clock bookkeeping fields touched by the eat arm of
QuickTime::handle_asyn_pkt. -/
structure EatState where
  start_time_device_audio_clock : Option TimeM
  start_time_local_audio_clock : Option TimeM
  last_eat_frame_received_device_audio_clock : Option TimeM
  last_eat_frame_received_local_audio_clock : Option TimeM
  deriving DecidableEq, Repr

/-- The eat arm of QuickTime::handle_asyn_pkt, acting on the clock
bookkeeping: pts is the parsed buffer's output_presentation_time_stamp
(None when the buffer carries no opts child), now is the local audio
clock's current Time.  When last_eat_frame_received_device_audio_clock
is None the start times are recorded as well; otherwise only the
last-received fields move. -/
def handleEat (s : EatState) (pts : Option TimeM) (now : TimeM) : EatState :=
  if s.last_eat_frame_received_device_audio_clock.isNone then
    { start_time_device_audio_clock := pts,
      start_time_local_audio_clock := some now,
      last_eat_frame_received_device_audio_clock := pts,
      last_eat_frame_received_local_audio_clock := some now }
  else
    { s with
      last_eat_frame_received_device_audio_clock := pts,
      last_eat_frame_received_local_audio_clock := some now }

/-- A run of eat packets: each step carries the buffer's opts timestamp
and the local clock reading at that step. -/
def handleEatRun (s : EatState) (steps : List (Option TimeM × TimeM)) : EatState :=
  steps.foldl (fun st step => handleEat st step.1 step.2) s

/-! Byte-codec lemmas. -/

theorem toLE4_length (n : Nat) : (toLE4 n).length = 4 := rfl

theorem toLE8_length (n : Nat) : (toLE8 n).length = 8 := rfl

theorem fromLE_toLE4 (n : Nat) : fromLE (toLE4 n) = n % 4294967296 := by
  simp [toLE4, fromLE]
  omega

theorem fromLE_toLE8 (n : Nat) : fromLE (toLE8 n) = n % 18446744073709551616 := by
  simp [toLE8, toLE4, fromLE]
  omega

theorem fromLE_toLE2 (n : Nat) : fromLE (toLE2 n) = n % 65536 := by
  simp [toLE2, fromLE]
  omega

theorem readExact_append (l r : List Nat) :
    readExact l.length (l ++ r) = .ok (l, r) := by
  simp [readExact, List.take_left, List.drop_left]

theorem readExact_append_of_eq {n : Nat} (l r : List Nat) (h : l.length = n) :
    readExact n (l ++ r) = .ok (l, r) := by
  subst h; exact readExact_append l r

theorem readExact_one (x : Nat) (r : List Nat) :
    readExact 1 (x :: r) = .ok ([x], r) := by
  simp [readExact]

theorem readExact_cons_append (x : Nat) (l r : List Nat) :
    readExact (l.length + 1) (x :: (l ++ r)) = .ok (x :: l, r) := by
  have h : x :: (l ++ r) = (x :: l) ++ r := rfl
  rw [h]
  exact readExact_append_of_eq (x :: l) r (by simp)

theorem readU32_toLE4 (n : Nat) (r : List Nat) :
    readU32 (toLE4 n ++ r) = .ok (n % 4294967296, r) := by
  rw [readU32, readExact_append_of_eq (toLE4 n) r (toLE4_length n)]
  simp [fromLE_toLE4]

theorem readU32_toLE4_of_lt {n : Nat} (r : List Nat) (h : n < 4294967296) :
    readU32 (toLE4 n ++ r) = .ok (n, r) := by
  rw [readU32_toLE4, Nat.mod_eq_of_lt h]

theorem readU64_toLE8 (n : Nat) (r : List Nat) :
    readU64 (toLE8 n ++ r) = .ok (n % 18446744073709551616, r) := by
  rw [readU64, readExact_append_of_eq (toLE8 n) r (toLE8_length n)]
  simp [fromLE_toLE8]

theorem parseQTValue_nil (fuel : Nat) : parseQTValue fuel [] = .error .eof := by
  cases fuel with
  | zero => rfl
  | succ f => rfl

/-! Well-formedness and round-trip image for the QT-value codec. -/

mutual

/-- The domain of the serialization round-trip statement: values a Rust
QTValue can hold (strings are valid UTF-8, numbers fit their width) whose
serialized node lengths fit the u32 length field.  FormatDescriptor
values are excluded here: their writer nests the sibling nodes that
from_qt_packet expects to follow the mdia node, so they do not reparse
at all (established separately for claim C3). -/
def wfQT : QTValueM → Bool
  | .StringKey s => validUtf8 s && decide (8 + s.length < 4294967296)
  | .StringValue s => validUtf8 s && decide (8 + s.length < 4294967296)
  | .Boolean _ => true
  | .KeyValuePair k v => wfQT k && wfQT v
  | .Object l => wfList l && decide (8 + (serList l).length < 4294967296)
  | .Float bits => decide (bits < 18446744073709551616)
  | .UInt32 n => decide (n < 4294967296)
  | .UInt64 n => decide (n < 18446744073709551616)
  | .Data d => decide (8 + d.length < 4294967296)
  | .IdxKey n => decide (n < 65536)
  | .FormatDescriptor _ _ _ _ _ _ _ => false

/-- wfQT over every element of a list. -/
def wfList : List QTValueM → Bool
  | [] => true
  | v :: l => wfQT v && wfList l

end

mutual

/-- The image of a value under parse-after-serialize: every StringValue
node comes back as a StringKey with the same bytes (the strv parser arm
builds StringKey); everything else is unchanged. -/
def rtQT : QTValueM → QTValueM
  | .StringValue s => .StringKey s
  | .KeyValuePair k v => .KeyValuePair (rtQT k) (rtQT v)
  | .Object l => .Object (rtList l)
  | x => x

/-- rtQT over a list. -/
def rtList : List QTValueM → List QTValueM
  | [] => []
  | v :: l => rtQT v :: rtList l

end

mutual

/-- Node count of a value, the recursion-depth budget of the parser. -/
def nodesQT : QTValueM → Nat
  | .KeyValuePair k v => 1 + nodesQT k + nodesQT v
  | .Object l => 1 + nodesList l
  | _ => 1

/-- Total node count of a list of values. -/
def nodesList : List QTValueM → Nat
  | [] => 0
  | v :: l => nodesQT v + nodesList l

end

theorem nodesQT_pos (v : QTValueM) : 1 ≤ nodesQT v := by
  cases v <;> (simp only [nodesQT]; omega)

theorem finalize_length (b : List Nat) : (finalize b).length = 4 + b.length := by
  simp [finalize, toLE4_length]

theorem serQT_is_finalize (v : QTValueM) : ∃ b, serQT v = finalize b := by
  cases v <;> rw [serQT] <;> exact ⟨_, rfl⟩

theorem serQT_length_pos (v : QTValueM) : 1 ≤ (serQT v).length := by
  obtain ⟨b, hb⟩ := serQT_is_finalize v
  rw [hb, finalize_length]
  omega

theorem length_le_serList (l : List QTValueM) : l.length ≤ (serList l).length := by
  induction l with
  | nil => simp [serList]
  | cons v l ih =>
    have := serQT_length_pos v
    simp only [serList, List.length_append, List.length_cons]
    omega

theorem wfList_mem {l : List QTValueM} {v : QTValueM} (hl : wfList l = true)
    (hv : v ∈ l) : wfQT v = true := by
  induction l with
  | nil => cases hv
  | cons w l ih =>
    rw [wfList, Bool.and_eq_true] at hl
    rw [List.mem_cons] at hv
    rcases hv with hv | hv
    · subst hv; exact hl.1
    · exact ih hl.2 hv

theorem nodesList_mem {l : List QTValueM} {v : QTValueM} (hv : v ∈ l) :
    nodesQT v ≤ nodesList l := by
  induction l with
  | nil => cases hv
  | cons w l ih =>
    rw [List.mem_cons] at hv
    rcases hv with hv | hv
    · subst hv; simp only [nodesList]; omega
    · have := ih hv
      simp only [nodesList]
      omega

theorem parse_node_header (f magic : Nat) (body rest : List Nat)
    (hlen : 8 + body.length < 4294967296) (hmagic : magic < 4294967296) :
    parseQTValue (f + 1) (finalize (toLE4 magic ++ body) ++ rest) =
      parseQTValueCore (parseQTValue f) (8 + body.length) magic (body ++ rest) := by
  have harr : finalize (toLE4 magic ++ body) ++ rest =
      toLE4 (8 + body.length) ++ (toLE4 magic ++ (body ++ rest)) := by
    simp only [finalize, List.length_append, toLE4_length, List.append_assoc]
    congr 2
    omega
  rw [harr]
  simp only [parseQTValue, readU32_toLE4_of_lt _ hlen, readU32_toLE4_of_lt _ hmagic]

theorem parseListUntilEof_ser
    (p : List Nat → Except PErr (QTValueM × List Nat))
    (hnil : p [] = .error .eof) :
    ∀ (l : List QTValueM) (lf : Nat),
      (∀ v, v ∈ l → ∀ rest, p (serQT v ++ rest) = .ok (rtQT v, rest)) →
      l.length < lf →
      parseListUntilEof p lf (serList l) = .ok (rtList l) := by
  intro l
  induction l with
  | nil =>
    intro lf _ hlf
    obtain ⟨lf, rfl⟩ : ∃ k, lf = k + 1 := ⟨lf - 1, by omega⟩
    rw [serList, rtList, parseListUntilEof, hnil]
  | cons v l ih =>
    intro lf hp hlf
    obtain ⟨lf, rfl⟩ : ∃ k, lf = k + 1 := ⟨lf - 1, by omega⟩
    have h1 := hp v (List.mem_cons_self v l) (serList l)
    have h2 := ih lf (fun w hw rest => hp w (List.mem_cons_of_mem v hw) rest)
      (by simp only [List.length_cons] at hlf; omega)
    simp only [serList, rtList, parseListUntilEof, h1, h2]

theorem core_stringkey (p : List Nat → Except PErr (QTValueM × List Nat))
    (s rest : List Nat) (hu : validUtf8 s = true) :
    parseQTValueCore p (8 + s.length) MAGIC_KEY_STRING (s ++ rest) =
      .ok (.StringKey s, rest) := by
  simp only [parseQTValueCore, MAGIC_KEY_STRING, MAGIC_KEY_VALUE_PAIR,
    MAGIC_KEY_DICTIONARY, MAGIC_FORMAT_DESCRIPTOR, MAGIC_KEY_STRING_VALUE,
    MAGIC_KEY_BOOLEAN, MAGIC_KEY_DATA_VALUE, MAGIC_KEY_NUMBER_VALUE, MAGIC_KEY_IDX]
  norm_num
  rw [readExact_append]
  simp [hu]

theorem core_stringvalue (p : List Nat → Except PErr (QTValueM × List Nat))
    (s rest : List Nat) (hu : validUtf8 s = true) :
    parseQTValueCore p (8 + s.length) MAGIC_KEY_STRING_VALUE (s ++ rest) =
      .ok (.StringKey s, rest) := by
  simp only [parseQTValueCore, MAGIC_KEY_STRING, MAGIC_KEY_VALUE_PAIR,
    MAGIC_KEY_DICTIONARY, MAGIC_FORMAT_DESCRIPTOR, MAGIC_KEY_STRING_VALUE,
    MAGIC_KEY_BOOLEAN, MAGIC_KEY_DATA_VALUE, MAGIC_KEY_NUMBER_VALUE, MAGIC_KEY_IDX]
  norm_num
  rw [readExact_append]
  simp [hu]

theorem core_boolean (p : List Nat → Except PErr (QTValueM × List Nat))
    (b : Bool) (rest : List Nat) :
    parseQTValueCore p 9 MAGIC_KEY_BOOLEAN ([if b then 1 else 0] ++ rest) =
      .ok (.Boolean b, rest) := by
  simp only [parseQTValueCore, MAGIC_KEY_STRING, MAGIC_KEY_VALUE_PAIR,
    MAGIC_KEY_DICTIONARY, MAGIC_FORMAT_DESCRIPTOR, MAGIC_KEY_STRING_VALUE,
    MAGIC_KEY_BOOLEAN, MAGIC_KEY_DATA_VALUE, MAGIC_KEY_NUMBER_VALUE, MAGIC_KEY_IDX]
  norm_num
  rw [readExact_one]
  cases b <;> rfl

theorem core_data (p : List Nat → Except PErr (QTValueM × List Nat))
    (d rest : List Nat) :
    parseQTValueCore p (8 + d.length) MAGIC_KEY_DATA_VALUE (d ++ rest) =
      .ok (.Data d, rest) := by
  simp only [parseQTValueCore, MAGIC_KEY_STRING, MAGIC_KEY_VALUE_PAIR,
    MAGIC_KEY_DICTIONARY, MAGIC_FORMAT_DESCRIPTOR, MAGIC_KEY_STRING_VALUE,
    MAGIC_KEY_BOOLEAN, MAGIC_KEY_DATA_VALUE, MAGIC_KEY_NUMBER_VALUE, MAGIC_KEY_IDX]
  norm_num
  rw [readExact_append]

theorem core_float (p : List Nat → Except PErr (QTValueM × List Nat))
    (bits : Nat) (rest : List Nat) (hb : bits < 18446744073709551616) :
    parseQTValueCore p 17 MAGIC_KEY_NUMBER_VALUE (([6] ++ toLE8 bits) ++ rest) =
      .ok (.Float bits, rest) := by
  simp only [parseQTValueCore, MAGIC_KEY_STRING, MAGIC_KEY_VALUE_PAIR,
    MAGIC_KEY_DICTIONARY, MAGIC_FORMAT_DESCRIPTOR, MAGIC_KEY_STRING_VALUE,
    MAGIC_KEY_BOOLEAN, MAGIC_KEY_DATA_VALUE, MAGIC_KEY_NUMBER_VALUE, MAGIC_KEY_IDX]
  norm_num
  rw [show (9 : Nat) = (toLE8 bits).length + 1 from by rw [toLE8_length],
    readExact_cons_append]
  have htake : (toLE8 bits).take 8 = toLE8 bits := by
    rw [← toLE8_length bits]
    exact List.take_length _
  simp [toLE8_length, htake, fromLE_toLE8, Nat.mod_eq_of_lt hb]

theorem core_uint32 (p : List Nat → Except PErr (QTValueM × List Nat))
    (n : Nat) (rest : List Nat) (hb : n < 4294967296) :
    parseQTValueCore p 13 MAGIC_KEY_NUMBER_VALUE (([3] ++ toLE4 n) ++ rest) =
      .ok (.UInt32 n, rest) := by
  simp only [parseQTValueCore, MAGIC_KEY_STRING, MAGIC_KEY_VALUE_PAIR,
    MAGIC_KEY_DICTIONARY, MAGIC_FORMAT_DESCRIPTOR, MAGIC_KEY_STRING_VALUE,
    MAGIC_KEY_BOOLEAN, MAGIC_KEY_DATA_VALUE, MAGIC_KEY_NUMBER_VALUE, MAGIC_KEY_IDX]
  norm_num
  rw [show (5 : Nat) = (toLE4 n).length + 1 from by rw [toLE4_length],
    readExact_cons_append]
  have htake : (toLE4 n).take 4 = toLE4 n := by
    rw [← toLE4_length n]
    exact List.take_length _
  simp [toLE4_length, htake, fromLE_toLE4, Nat.mod_eq_of_lt hb]

theorem core_uint64 (p : List Nat → Except PErr (QTValueM × List Nat))
    (n : Nat) (rest : List Nat) (hb : n < 18446744073709551616) :
    parseQTValueCore p 17 MAGIC_KEY_NUMBER_VALUE (([4] ++ toLE8 n) ++ rest) =
      .ok (.UInt64 n, rest) := by
  simp only [parseQTValueCore, MAGIC_KEY_STRING, MAGIC_KEY_VALUE_PAIR,
    MAGIC_KEY_DICTIONARY, MAGIC_FORMAT_DESCRIPTOR, MAGIC_KEY_STRING_VALUE,
    MAGIC_KEY_BOOLEAN, MAGIC_KEY_DATA_VALUE, MAGIC_KEY_NUMBER_VALUE, MAGIC_KEY_IDX]
  norm_num
  rw [show (9 : Nat) = (toLE8 n).length + 1 from by rw [toLE8_length],
    readExact_cons_append]
  have htake : (toLE8 n).take 8 = toLE8 n := by
    rw [← toLE8_length n]
    exact List.take_length _
  simp [toLE8_length, htake, fromLE_toLE8, Nat.mod_eq_of_lt hb]

theorem core_idx (p : List Nat → Except PErr (QTValueM × List Nat))
    (n : Nat) (rest : List Nat) (hb : n < 65536) :
    parseQTValueCore p 10 MAGIC_KEY_IDX (toLE2 n ++ rest) =
      .ok (.IdxKey n, rest) := by
  simp only [parseQTValueCore, MAGIC_KEY_STRING, MAGIC_KEY_VALUE_PAIR,
    MAGIC_KEY_DICTIONARY, MAGIC_FORMAT_DESCRIPTOR, MAGIC_KEY_STRING_VALUE,
    MAGIC_KEY_BOOLEAN, MAGIC_KEY_DATA_VALUE, MAGIC_KEY_NUMBER_VALUE, MAGIC_KEY_IDX]
  norm_num
  rw [show (2 : Nat) = (toLE2 n).length from rfl, readExact_append]
  have htake : (toLE2 n).take (toLE2 n).length = toLE2 n := List.take_length _
  simp [htake, fromLE_toLE2, Nat.mod_eq_of_lt hb]

theorem parse_node_header_mod (f magic : Nat) (body rest : List Nat)
    (hmagic : magic < 4294967296) :
    parseQTValue (f + 1) (finalize (toLE4 magic ++ body) ++ rest) =
      parseQTValueCore (parseQTValue f) ((8 + body.length) % 4294967296) magic
        (body ++ rest) := by
  have harr : finalize (toLE4 magic ++ body) ++ rest =
      toLE4 (8 + body.length) ++ (toLE4 magic ++ (body ++ rest)) := by
    simp only [finalize, List.length_append, toLE4_length, List.append_assoc]
    congr 2
    omega
  rw [harr]
  simp only [parseQTValue, readU32_toLE4, readU32_toLE4_of_lt _ hmagic]

/-- Round trip of the QT-value codec on well-formed values: parsing the
serialization yields the rtQT image (StringValue nodes come back as
StringKey) and consumes exactly the serialized bytes, for any fuel at
least the node count. -/
theorem parseQTValue_ser :
    ∀ (fuel : Nat) (v : QTValueM) (rest : List Nat),
      wfQT v = true → nodesQT v ≤ fuel →
      parseQTValue fuel (serQT v ++ rest) = .ok (rtQT v, rest) := by
  intro fuel
  induction fuel with
  | zero =>
    intro v rest _ hn
    have := nodesQT_pos v
    omega
  | succ f ih =>
    intro v rest hwf hn
    cases v with
    | StringKey s =>
      rw [wfQT, Bool.and_eq_true, decide_eq_true_eq] at hwf
      rw [serQT, parse_node_header f MAGIC_KEY_STRING s rest hwf.2 (by decide),
        core_stringkey _ _ _ hwf.1]
      simp [rtQT]
    | StringValue s =>
      rw [wfQT, Bool.and_eq_true, decide_eq_true_eq] at hwf
      rw [serQT, parse_node_header f MAGIC_KEY_STRING_VALUE s rest hwf.2 (by decide),
        core_stringvalue _ _ _ hwf.1]
      simp [rtQT]
    | Boolean b =>
      rw [serQT]
      rw [parse_node_header f MAGIC_KEY_BOOLEAN [if b then 1 else 0] rest
        (by cases b <;> decide) (by decide)]
      have h9 : 8 + ([if b then 1 else 0] : List Nat).length = 9 := by
        cases b <;> rfl
      rw [h9, core_boolean]
      simp [rtQT]
    | Data d =>
      rw [wfQT, decide_eq_true_eq] at hwf
      rw [serQT, parse_node_header f MAGIC_KEY_DATA_VALUE d rest hwf (by decide),
        core_data]
      simp [rtQT]
    | Float bits =>
      rw [wfQT, decide_eq_true_eq] at hwf
      rw [serQT, List.append_assoc (toLE4 MAGIC_KEY_NUMBER_VALUE)]
      rw [parse_node_header f MAGIC_KEY_NUMBER_VALUE ([6] ++ toLE8 bits) rest
        (by simp [toLE8_length]) (by decide)]
      have h17 : 8 + ([6] ++ toLE8 bits).length = 17 := by
        simp [toLE8_length]
      rw [h17, core_float _ _ _ hwf]
      simp [rtQT]
    | UInt32 n =>
      rw [wfQT, decide_eq_true_eq] at hwf
      rw [serQT, List.append_assoc (toLE4 MAGIC_KEY_NUMBER_VALUE)]
      rw [parse_node_header f MAGIC_KEY_NUMBER_VALUE ([3] ++ toLE4 n) rest
        (by simp [toLE4_length]) (by decide)]
      have h13 : 8 + ([3] ++ toLE4 n).length = 13 := by
        simp [toLE4_length]
      rw [h13, core_uint32 _ _ _ hwf]
      simp [rtQT]
    | UInt64 n =>
      rw [wfQT, decide_eq_true_eq] at hwf
      rw [serQT, List.append_assoc (toLE4 MAGIC_KEY_NUMBER_VALUE)]
      rw [parse_node_header f MAGIC_KEY_NUMBER_VALUE ([4] ++ toLE8 n) rest
        (by simp [toLE8_length]) (by decide)]
      have h17 : 8 + ([4] ++ toLE8 n).length = 17 := by
        simp [toLE8_length]
      rw [h17, core_uint64 _ _ _ hwf]
      simp [rtQT]
    | IdxKey n =>
      rw [wfQT, decide_eq_true_eq] at hwf
      have h10 : 8 + (toLE2 n).length = 10 := rfl
      rw [serQT, parse_node_header f MAGIC_KEY_IDX (toLE2 n) rest
        (by norm_num [toLE2]) (by decide), h10, core_idx _ _ _ hwf]
      simp [rtQT]
    | KeyValuePair k v =>
      rw [wfQT, Bool.and_eq_true] at hwf
      rw [nodesQT] at hn
      rw [serQT, List.append_assoc (toLE4 MAGIC_KEY_VALUE_PAIR)]
      rw [parse_node_header_mod f MAGIC_KEY_VALUE_PAIR (serQT k ++ serQT v) rest
        (by decide)]
      have hk := ih k (serQT v ++ rest) hwf.1 (by omega)
      have hv := ih v rest hwf.2 (by omega)
      simp only [parseQTValueCore, List.append_assoc, hk, hv, rtQT]
      simp
    | Object l =>
      rw [wfQT, Bool.and_eq_true, decide_eq_true_eq] at hwf
      rw [nodesQT] at hn
      rw [serQT]
      rw [parse_node_header f MAGIC_KEY_DICTIONARY (serList l) rest hwf.2 (by decide)]
      have hloop : parseListUntilEof (parseQTValue f) ((serList l).length + 1)
          (serList l) = .ok (rtList l) := by
        apply parseListUntilEof_ser (parseQTValue f) (parseQTValue_nil f) l
        · intro w hw wrest
          exact ih w wrest (wfList_mem hwf.1 hw)
            (le_trans (nodesList_mem hw) (by omega))
        · have := length_le_serList l
          omega
      simp only [parseQTValueCore, MAGIC_KEY_DICTIONARY, MAGIC_KEY_VALUE_PAIR]
      norm_num
      rw [readExact_append]
      simp only [hloop, rtQT]
    | FormatDescriptor mt w h c exts avc asbd =>
      rw [wfQT] at hwf
      exact absurd hwf (by simp)

mutual

theorem nodesQT_le_ser (v : QTValueM) : nodesQT v ≤ (serQT v).length := by
  cases v with
  | KeyValuePair k v =>
    have hk := nodesQT_le_ser k
    have hv := nodesQT_le_ser v
    rw [nodesQT, serQT, finalize_length]
    simp only [List.length_append, toLE4_length]
    omega
  | Object l =>
    have hl := nodesList_le_ser l
    rw [nodesQT, serQT, finalize_length]
    simp only [List.length_append, toLE4_length]
    omega
  | StringKey s => simp only [nodesQT]; exact serQT_length_pos _
  | StringValue s => simp only [nodesQT]; exact serQT_length_pos _
  | Boolean b => simp only [nodesQT]; exact serQT_length_pos _
  | Float bits => simp only [nodesQT]; exact serQT_length_pos _
  | UInt32 n => simp only [nodesQT]; exact serQT_length_pos _
  | UInt64 n => simp only [nodesQT]; exact serQT_length_pos _
  | Data d => simp only [nodesQT]; exact serQT_length_pos _
  | IdxKey n => simp only [nodesQT]; exact serQT_length_pos _
  | FormatDescriptor mt w h c exts avc asbd =>
    simp only [nodesQT]; exact serQT_length_pos _

theorem nodesList_le_ser (l : List QTValueM) : nodesList l ≤ (serList l).length := by
  cases l with
  | nil => simp [nodesList, serList]
  | cons v l =>
    have hv := nodesQT_le_ser v
    have hl := nodesList_le_ser l
    rw [nodesList, serList]
    simp only [List.length_append]
    omega

end

mutual

/-- Values without StringValue nodes (on these the round-trip image rtQT
is the identity). -/
def noStringValue : QTValueM → Bool
  | .StringValue _ => false
  | .KeyValuePair k v => noStringValue k && noStringValue v
  | .Object l => noStringValueList l
  | _ => true

/-- noStringValue over a list. -/
def noStringValueList : List QTValueM → Bool
  | [] => true
  | v :: l => noStringValue v && noStringValueList l

end

mutual

theorem rtQT_eq_of_noSV (v : QTValueM) (h : noStringValue v = true) : rtQT v = v := by
  cases v with
  | StringValue s => rw [noStringValue] at h; cases h
  | KeyValuePair k v =>
    rw [noStringValue, Bool.and_eq_true] at h
    rw [rtQT, rtQT_eq_of_noSV k h.1, rtQT_eq_of_noSV v h.2]
  | Object l =>
    rw [noStringValue] at h
    rw [rtQT, rtList_eq_of_noSV l h]
  | StringKey s => rfl
  | Boolean b => rfl
  | Float bits => rfl
  | UInt32 n => rfl
  | UInt64 n => rfl
  | Data d => rfl
  | IdxKey n => rfl
  | FormatDescriptor mt w hh c exts avc asbd => rfl

theorem rtList_eq_of_noSV (l : List QTValueM) (h : noStringValueList l = true) :
    rtList l = l := by
  cases l with
  | nil => rfl
  | cons v l =>
    rw [noStringValueList, Bool.and_eq_true] at h
    rw [rtList, rtQT_eq_of_noSV v h.1, rtList_eq_of_noSV l h.2]

end

/-- C1, amended part: for every well-formed QT-value without
FormatDescriptor nodes, parsing the finalized serialization returns the
rtQT image with no bytes left over, and on values without StringValue
nodes that image is the value itself. -/
theorem c1_roundtrip_amended (v : QTValueM) (h : wfQT v = true) :
    parseQTValueTop (serQT v) = .ok (rtQT v, []) ∧
    (noStringValue v = true → rtQT v = v) := by
  constructor
  · have hn : nodesQT v ≤ (serQT v).length + 1 :=
      le_trans (nodesQT_le_ser v) (by omega)
    have hr := parseQTValue_ser ((serQT v).length + 1) v [] h hn
    rw [List.append_nil] at hr
    exact hr
  · exact rtQT_eq_of_noSV v

/-- A sample value exercising most variants for the C1 witness. -/
def c1WitnessValue : QTValueM :=
  .Object
    [ .KeyValuePair (.StringKey (asciiBytes "Error")) (.UInt32 0),
      .Boolean true,
      .KeyValuePair (.IdxKey 49) (.Data [1, 2, 3]),
      .Float 0x3FA47AE147AE147B,
      .UInt64 18446744073709551615,
      .StringValue (asciiBytes "ab") ]

theorem c1_roundtrip_amended_witness :
    wfQT c1WitnessValue = true ∧
    (parseQTValueTop (serQT c1WitnessValue) = .ok (rtQT c1WitnessValue, []) ∧
      (noStringValue c1WitnessValue = true → rtQT c1WitnessValue = c1WitnessValue)) :=
  ⟨rfl, c1_roundtrip_amended c1WitnessValue rfl⟩

/-- C1, counterexample: the claim as stated fails at the StringValue
value with the single byte 0x61 ("a"): parsing its serialization returns
a StringKey, not the value itself (the strv parser arm of
QTValue::from_qt_packet constructs QTValue::StringKey). -/
theorem c1_stringvalue_counterexample :
    parseQTValueTop (serQT (QTValueM.StringValue [0x61])) =
      .ok (QTValueM.StringKey [0x61], []) ∧
    QTValueM.StringKey [0x61] ≠ QTValueM.StringValue [0x61] :=
  ⟨rfl, fun h => QTValueM.noConfusion h⟩

/-! Claim C2: the reassembler on split captured packets. -/

def c2Packet1 : List Nat := [12, 0, 0, 0, 1, 2, 3, 4, 5, 6, 7, 8]
def c2Packet2 : List Nat := [8, 0, 0, 0, 9, 9, 9, 9]
def c2Packet3 : List Nat := [8, 0, 0, 0, 7, 7, 7, 7]
def c2Chunk1 : List Nat := [12, 0, 0, 0]
def c2Chunk2 : List Nat := [1, 2, 3, 4]
def c2Chunk3 : List Nat := [5, 6, 7, 8] ++ c2Packet2 ++ c2Packet3

/-- C2: three well-formed packets split into three non-empty chunks
(K = N = 3), the third chunk completing the first packet and containing
the second and third whole.  QuickTime::read extracts at most one packet
per call, so the run delivers only the first packet and leaves the other
two sitting in the pool — not the three packets the claim requires. -/
theorem c2_single_extraction_per_chunk :
    wellFormedPacket c2Packet1 ∧ wellFormedPacket c2Packet2 ∧
    wellFormedPacket c2Packet3 ∧
    c2Chunk1 ≠ [] ∧ c2Chunk2 ≠ [] ∧ c2Chunk3 ≠ [] ∧
    c2Chunk1 ++ c2Chunk2 ++ c2Chunk3 = c2Packet1 ++ c2Packet2 ++ c2Packet3 ∧
    runChunks [] [c2Chunk1, c2Chunk2, c2Chunk3] =
      .ok ([c2Packet1], c2Packet2 ++ c2Packet3) := by
  refine ⟨⟨by decide, by decide, by decide⟩, ⟨by decide, by decide, by decide⟩,
    ⟨by decide, by decide, by decide⟩, by decide, by decide, by decide, by decide, ?_⟩
  rfl

/-- C9: a pooled input of exactly four bytes whose length field reads 2.
QuickTime::read reaches QTPacket::from_bytes with a two-byte buffer and
panics indexing data[2] — it does not return a protocol error. -/
theorem c9_want_below_four_panics :
    fromLE (([] ++ [2, 0, 0, 0] : List Nat).take 4) = 2 ∧
    qtReadStep [] [2, 0, 0, 0] = .panicked := by
  exact ⟨by decide, rfl⟩

/-! Claim C3: format-descriptor reserialization. -/

/-- A captured-layout sound format descriptor: the mdia node followed by
its sibling asbd node holding 40 zero bytes (all-zero
AudioStreamDescription fields). -/
def c3FlatFD : List Nat :=
  finalize (toLE4 MAGIC_MEDIA_TYPE ++ toLE4 MEDIA_TYPE_SOUND) ++
  finalize (toLE4 MAGIC_AUDIO_STREAM_DESCRIPTION ++ List.replicate 40 0)

/-- The descriptor parsed from c3FlatFD. -/
def c3ParsedFD : FormatDescriptorM :=
  ⟨MEDIA_TYPE_SOUND, 0, 0, 0, none, none, some ⟨0, 0, 0, 0, 0, 0, 0, 0, 0⟩⟩

/-- A captured sbuf packet carrying that format descriptor as its only
child. -/
def c3SbufPacket : List Nat :=
  finalize (toLE4 MAGIC_SBUF ++ finalize (toLE4 MAGIC_FORMAT_DESCRIPTOR ++ c3FlatFD))

/-- The SampleBuffer parsed from c3SbufPacket. -/
def c3SampleBuffer : SampleBufferM :=
  ⟨none, some c3ParsedFD, 0, none, none, none, none, none, MEDIA_TYPE_VIDEO⟩

/-- C3: a SampleBuffer parsed from a captured packet carries the sound
descriptor; FormatDescriptor::as_qt_packet serializes it successfully,
but FormatDescriptor::from_qt_packet fails on those bytes with an
UnexpectedEof (the writer nests the asbd node inside the mdia node while
the reader expects it as a sibling), so no field equality can hold. -/
theorem c3_fd_reserialize_fails :
    parseSampleBuffer 9 c3SbufPacket MEDIA_TYPE_VIDEO = .ok c3SampleBuffer ∧
    c3SampleBuffer.format_description = some c3ParsedFD ∧
    parseFD 9 c3FlatFD = .ok (c3ParsedFD, []) ∧
    serFDE c3ParsedFD = .ok (serFD c3ParsedFD) ∧
    parseFD 9 (serFD c3ParsedFD) = .error .eof :=
  ⟨rfl, rfl, rfl, rfl, rfl⟩

/-! Claim C6: the shared header of every SYNC reply. -/

theorem drop_left_append {n : Nat} (pre post : List Nat) (h : pre.length = n) :
    (pre ++ post).drop n = post := by
  subst h
  exact List.drop_left pre post

theorem take_left_append {n : Nat} (pre post : List Nat) (h : pre.length = n) :
    (pre ++ post).take n = pre := by
  subst h
  exact List.take_left pre post

/-- The shape required of a reply packet: after the u32 length header come
the rply magic, the correlation id as u64, and a 4-byte zero pad. -/
def replyHeaderOK (bytes : List Nat) (correlation_id : Nat) : Prop :=
  (bytes.drop 4).take 4 = toLE4 PACKET_MAGIC_REPLY ∧
  (bytes.drop 8).take 8 = toLE8 correlation_id ∧
  (bytes.drop 16).take 4 = toLE4 0

theorem replyHeaderOK_finalize (correlation_id : Nat) (tail : List Nat) :
    replyHeaderOK (finalize (replyPacketBody correlation_id ++ tail)) correlation_id := by
  have hb : finalize (replyPacketBody correlation_id ++ tail) =
      toLE4 (20 + tail.length) ++
        (toLE4 PACKET_MAGIC_REPLY ++ (toLE8 correlation_id ++ (toLE4 0 ++ tail))) := by
    simp only [finalize, replyPacketBody, List.length_append, toLE4_length,
      toLE8_length, List.append_assoc]
    congr 2
    omega
  refine ⟨?_, ?_, ?_⟩
  · rw [hb, drop_left_append _ _ (toLE4_length _),
      take_left_append _ _ (toLE4_length _)]
  · have hb8 : finalize (replyPacketBody correlation_id ++ tail) =
        (toLE4 (20 + tail.length) ++ toLE4 PACKET_MAGIC_REPLY) ++
          (toLE8 correlation_id ++ (toLE4 0 ++ tail)) := by
      rw [hb, List.append_assoc]
    rw [hb8, drop_left_append _ _ (by simp [toLE4_length]),
      take_left_append _ _ (toLE8_length _)]
  · have hb16 : finalize (replyPacketBody correlation_id ++ tail) =
        ((toLE4 (20 + tail.length) ++ toLE4 PACKET_MAGIC_REPLY) ++ toLE8 correlation_id) ++
          (toLE4 0 ++ tail) := by
      rw [hb, List.append_assoc, List.append_assoc]
    rw [hb16, drop_left_append _ _ (by simp [toLE4_length, toLE8_length]),
      take_left_append _ _ (toLE4_length _)]

/-- C6: every reply the SYNC handlers write (go!, cwpa, cvrp, clok, afmt,
skew, stop — the cvrp and clok replies are both clockRefReply instances)
starts, right after its u32 length header, with the rply magic, the
request's correlation id as a u64, and a 4-byte zero pad, before any
type-specific body. -/
theorem c6_sync_reply_header (correlation_id device_clock_ref clock_ref skew_bits : Nat) :
    replyHeaderOK (ogReply correlation_id) correlation_id ∧
    replyHeaderOK (cwpaReply correlation_id device_clock_ref) correlation_id ∧
    replyHeaderOK (clockRefReply correlation_id clock_ref) correlation_id ∧
    replyHeaderOK (afmtReply correlation_id) correlation_id ∧
    replyHeaderOK (skewReply correlation_id skew_bits) correlation_id ∧
    replyHeaderOK (stopReply correlation_id) correlation_id := by
  refine ⟨?_, ?_, ?_, ?_, ?_, ?_⟩
  · exact replyHeaderOK_finalize _ _
  · rw [cwpaReply, replyClockBody, List.append_assoc]
    exact replyHeaderOK_finalize _ _
  · rw [clockRefReply, replyClockBody]
    exact replyHeaderOK_finalize _ _
  · exact replyHeaderOK_finalize _ _
  · exact replyHeaderOK_finalize _ _
  · exact replyHeaderOK_finalize _ _

/-! Claims C8 (clok) and C4 (time) on the SYNC handler. -/

/-- C8: the clok arm creates a fresh host-backed clock whose id is
clock_ref + 0x10000 and writes one reply whose trailing eight bytes are
that id in little-endian (the reply is 28 bytes long, so those are the
bytes after offset 20). -/
theorem c8_clok_creates_clock_and_reply (qtFuel : Nat) (ctx : SyncCtx)
    (clock_ref correlation_id : Nat) (payload : List Nat)
    (h : clock_ref + 0x10000 < 18446744073709551616) :
    handleSyncPkt qtFuel ctx clock_ref correlation_id SYNC_PACKET_MAGIC_CLOK payload =
      .ok { writes := [clockRefReply correlation_id (clock_ref + 0x10000)],
            clock := some (newClockWithHostTime (clock_ref + 0x10000)) } ∧
    (newClockWithHostTime (clock_ref + 0x10000)).id = clock_ref + 0x10000 ∧
    (clockRefReply correlation_id (clock_ref + 0x10000)).length = 28 ∧
    (clockRefReply correlation_id (clock_ref + 0x10000)).drop 20 =
      toLE8 (clock_ref + 0x10000) := by
  have hb : clockRefReply correlation_id (clock_ref + 0x10000) =
      (toLE4 28 ++ replyPacketBody correlation_id) ++ toLE8 (clock_ref + 0x10000) := by
    rw [clockRefReply, replyClockBody, finalize]
    simp only [List.length_append, toLE8_length, List.append_assoc]
    norm_num [replyPacketBody, toLE4_length, toLE8_length]
  refine ⟨?_, rfl, ?_, ?_⟩
  · simp only [handleSyncPkt]
    norm_num [SYNC_PACKET_MAGIC_OG, SYNC_PACKET_MAGIC_CWPA, SYNC_PACKET_MAGIC_CVRP,
      SYNC_PACKET_MAGIC_CLOK, Nat.mod_eq_of_lt h]
  · rw [hb]
    simp [replyPacketBody, toLE4_length, toLE8_length]
  · rw [hb, drop_left_append _ _ (by simp [replyPacketBody, toLE4_length, toLE8_length])]

def c8WitnessCtx : SyncCtx := ⟨none, false, 0⟩

theorem c8_clok_creates_clock_and_reply_witness :
    1 + 0x10000 < 18446744073709551616 ∧
    (handleSyncPkt 1 c8WitnessCtx 1 0x11 SYNC_PACKET_MAGIC_CLOK [] =
      .ok { writes := [clockRefReply 0x11 (1 + 0x10000)],
            clock := some (newClockWithHostTime (1 + 0x10000)) } ∧
    (newClockWithHostTime (1 + 0x10000)).id = 1 + 0x10000 ∧
    (clockRefReply 0x11 (1 + 0x10000)).length = 28 ∧
    (clockRefReply 0x11 (1 + 0x10000)).drop 20 = toLE8 (1 + 0x10000)) :=
  ⟨by norm_num, c8_clok_creates_clock_and_reply 1 c8WitnessCtx 1 0x11 [] (by norm_num)⟩

/-- The trailing eight bytes for clock_ref = 1 encode 0x10001 in
little-endian. -/
theorem c8_clok_trailing_bytes_concrete :
    (clockRefReply 0x11 (1 + 0x10000)).drop 20 = [0x01, 0x00, 0x01, 0, 0, 0, 0, 0] := by
  decide

/-- C4: the time arm builds the QTPacketTIME reply (44 bytes: length
header, rply header, and the 24 Time bytes) but never writes it — the
handler's write list is empty and no state changes. -/
theorem c4_time_reply_not_written (qtFuel : Nat) (ctx : SyncCtx)
    (clock_ref correlation_id : Nat) (payload : List Nat) (t : TimeM)
    (h : ctx.hostClockTime = some t) :
    handleSyncPkt qtFuel ctx clock_ref correlation_id SYNC_PACKET_MAGIC_TIME payload =
      .ok { writes := [] } ∧
    (timeReply correlation_id t).length = 44 := by
  constructor
  · simp only [handleSyncPkt, h]
    norm_num [SYNC_PACKET_MAGIC_OG, SYNC_PACKET_MAGIC_CWPA, SYNC_PACKET_MAGIC_CVRP,
      SYNC_PACKET_MAGIC_CLOK, SYNC_PACKET_MAGIC_TIME]
  · simp [timeReply, finalize, replyPacketBody, timeBytes, toLE4_length, toLE8_length]

def c4WitnessCtx : SyncCtx := ⟨some ⟨77, 1000000000, 1, 0⟩, false, 0⟩

theorem c4_time_reply_not_written_witness :
    c4WitnessCtx.hostClockTime = some ⟨77, 1000000000, 1, 0⟩ ∧
    (handleSyncPkt 1 c4WitnessCtx 5 0x11 SYNC_PACKET_MAGIC_TIME [] =
      .ok { writes := [] } ∧
    (timeReply 0x11 ⟨77, 1000000000, 1, 0⟩).length = 44) :=
  ⟨rfl, c4_time_reply_not_written 1 c4WitnessCtx 5 0x11 [] ⟨77, 1000000000, 1, 0⟩ rfl⟩

/-! Claim C5: the feed handler. -/

theorem parseSBChildren_media (qtFuel : Nat) :
    ∀ (f : Nat) (l : List Nat) (sb sb' : SampleBufferM),
      parseSBChildren qtFuel f l sb = .ok sb' → sb'.media_type = sb.media_type := by
  intro f
  induction f with
  | zero =>
    intro l sb sb' h
    exact absurd h (by simp [parseSBChildren])
  | succ f ih =>
    intro l sb sb' h
    rw [parseSBChildren] at h
    split at h
    · cases h
      rfl
    · split at h
      · cases h
      · split at h
        · split at h
          · cases h
          · exact (ih _ _ _ h).trans rfl
        · split at h
          · split at h
            · cases h
            · exact (ih _ _ _ h).trans rfl
          · split at h
            · exact (ih _ _ _ h).trans rfl
            · split at h
              · split at h
                · cases h
                · exact (ih _ _ _ h).trans rfl
              · split at h
                · split at h
                  · cases h
                  · exact (ih _ _ _ h).trans rfl
                · split at h
                  · split at h
                    · cases h
                    · exact (ih _ _ _ h).trans rfl
                  · split at h
                    · split at h
                      · cases h
                      · exact (ih _ _ _ h).trans rfl
                    · split at h
                      · split at h
                        · cases h
                        · exact (ih _ _ _ h).trans rfl
                      · split at h
                        · exact (ih _ _ _ h).trans rfl
                        · exact (ih _ _ _ h).trans rfl

theorem parseSampleBuffer_media (qtFuel : Nat) (l : List Nat) (mt : Nat)
    (sb : SampleBufferM) (h : parseSampleBuffer qtFuel l mt = .ok sb) :
    sb.media_type = mt := by
  rw [parseSampleBuffer] at h
  split at h
  · cases h
  · exact parseSBChildren_media qtFuel _ _ _ _ h

/-- C5: whenever the feed payload parses as a video SampleBuffer and a
need_clock_ref was recorded, the handler writes exactly one asyn need
packet — whose u64 header (bytes 8..16) is the recorded need_clock_ref —
and sends exactly that one SampleBuffer, whose media_type is vide. -/
theorem c5_feed_one_need_one_buffer (qtFuel need_clock_ref : Nat) (payload : List Nat)
    (sb : SampleBufferM)
    (h : parseSampleBuffer qtFuel payload MEDIA_TYPE_VIDEO = .ok sb) :
    handleAsynFeed qtFuel (some need_clock_ref) payload =
      .ok ([needPacketBytes need_clock_ref], [sb]) ∧
    ((needPacketBytes need_clock_ref).drop 8).take 8 = toLE8 need_clock_ref ∧
    sb.media_type = MEDIA_TYPE_VIDEO := by
  refine ⟨?_, ?_, parseSampleBuffer_media qtFuel payload MEDIA_TYPE_VIDEO sb h⟩
  · simp only [handleAsynFeed, h]
  · have hb : needPacketBytes need_clock_ref =
        (toLE4 20 ++ toLE4 PACKET_MAGIC_ASYN) ++
          (toLE8 need_clock_ref ++ toLE4 MAGIC_NEED) := by
      rw [needPacketBytes, asynPacketBytes, finalize]
      simp only [List.append_nil, List.length_append, List.append_assoc]
      norm_num [toLE4_length, toLE8_length]
    rw [hb, drop_left_append _ _ (by simp [toLE4_length]),
      take_left_append _ _ (toLE8_length _)]

def c5WitnessPayload : List Nat := finalize (toLE4 MAGIC_SBUF)

theorem c5_feed_one_need_one_buffer_witness :
    parseSampleBuffer 1 c5WitnessPayload MEDIA_TYPE_VIDEO =
      .ok (newSampleBuffer MEDIA_TYPE_VIDEO) ∧
    (handleAsynFeed 1 (some 0x77) c5WitnessPayload =
      .ok ([needPacketBytes 0x77], [newSampleBuffer MEDIA_TYPE_VIDEO]) ∧
    ((needPacketBytes 0x77).drop 8).take 8 = toLE8 0x77 ∧
    (newSampleBuffer MEDIA_TYPE_VIDEO).media_type = MEDIA_TYPE_VIDEO) :=
  ⟨rfl, c5_feed_one_need_one_buffer 1 0x77 c5WitnessPayload
    (newSampleBuffer MEDIA_TYPE_VIDEO) rfl⟩

/-! Claim C7: the ping echo. -/

/-- C7, amended part: a packet whose length header is accurate and whose
magic field at offset 4 decodes (little-endian) to PACKET_MAGIC_PING is
written back byte-for-byte. -/
theorem c7_ping_echo_amended (pkt : List Nat)
    (hlen : pkt.take 4 = toLE4 pkt.length)
    (hmagic : (pkt.drop 4).take 4 = toLE4 PACKET_MAGIC_PING) :
    runStepAction pkt = .ping pkt := by
  have hsplit : pkt.drop 4 = toLE4 PACKET_MAGIC_PING ++ (pkt.drop 4).drop 4 := by
    conv_lhs => rw [← List.take_append_drop 4 (pkt.drop 4)]
    rw [hmagic]
  have hread : readU32 (pkt.drop 4) = .ok (PACKET_MAGIC_PING, (pkt.drop 4).drop 4) := by
    conv_lhs => rw [hsplit]
    exact readU32_toLE4_of_lt _ (by decide)
  have hecho : toLE4 pkt.length ++ pkt.drop 4 = pkt := by
    rw [← hlen, List.take_append_drop]
  rw [runStepAction, hread]
  simp [hecho]

def c7EchoWitnessPacket : List Nat :=
  [0x10, 0, 0, 0, 0x67, 0x6E, 0x69, 0x70, 0xDE, 0xAD, 0xBE, 0xEF, 0xCA, 0xFE, 0xBA, 0xBE]

theorem c7_ping_echo_amended_witness :
    c7EchoWitnessPacket.take 4 = toLE4 c7EchoWitnessPacket.length ∧
    (c7EchoWitnessPacket.drop 4).take 4 = toLE4 PACKET_MAGIC_PING ∧
    runStepAction c7EchoWitnessPacket = .ping c7EchoWitnessPacket :=
  ⟨by decide, by decide, c7_ping_echo_amended c7EchoWitnessPacket (by decide) (by decide)⟩

/-- The 16-byte example of the claim, with the ASCII bytes of "ping" in
reading order at offset 4. -/
def c7SpecExampleBytes : List Nat :=
  [0x10, 0, 0, 0, 0x70, 0x69, 0x6E, 0x67, 0xDE, 0xAD, 0xBE, 0xEF, 0xCA, 0xFE, 0xBA, 0xBE]

/-- C7, counterexample: the claim's example input is not dispatched as a
ping at all — its magic field decodes to 0x676E6970, which matches no
outer magic, so the packet is only logged and nothing is written; in
particular it is not echoed. -/
theorem c7_ascii_order_ping_counterexample :
    runStepAction c7SpecExampleBytes = .unknown ∧
    runStepAction c7SpecExampleBytes ≠ .ping c7SpecExampleBytes := by
  exact ⟨by decide, by decide⟩

/-! Claim C10: the eat arm's start-time bookkeeping. -/

theorem handleEat_of_last_none (s : EatState) (pts : Option TimeM) (now : TimeM)
    (h : s.last_eat_frame_received_device_audio_clock = none) :
    handleEat s pts now = ⟨pts, some now, pts, some now⟩ := by
  have hn : s.last_eat_frame_received_device_audio_clock.isNone = true := by
    rw [h]; rfl
  rw [handleEat, hn]
  simp

theorem handleEat_of_last_some (s : EatState) (pts : Option TimeM) (now : TimeM)
    (h : s.last_eat_frame_received_device_audio_clock ≠ none) :
    (handleEat s pts now).start_time_device_audio_clock =
      s.start_time_device_audio_clock ∧
    (handleEat s pts now).start_time_local_audio_clock =
      s.start_time_local_audio_clock ∧
    (handleEat s pts now).last_eat_frame_received_device_audio_clock = pts := by
  have hn : s.last_eat_frame_received_device_audio_clock.isNone = false := by
    cases hx : s.last_eat_frame_received_device_audio_clock with
    | none => exact absurd hx h
    | some t => rfl
  rw [handleEat, hn]
  exact ⟨rfl, rfl, rfl⟩

/-- C10, amended: (1) the eat arm changes the start-time fields only when
last_eat_frame_received_device_audio_clock is None; (2) once that field
holds a value, the start times survive any run of further eat packets all
of whose buffers carry an opts timestamp; (3) when the field is None and
the buffer lacks opts, the field stays None and the start times are
recorded anew by the next eat packet. -/
theorem c10_eat_start_time_amended :
    (∀ (s : EatState) (pts : Option TimeM) (now : TimeM),
      s.last_eat_frame_received_device_audio_clock ≠ none →
      (handleEat s pts now).start_time_device_audio_clock =
        s.start_time_device_audio_clock ∧
      (handleEat s pts now).start_time_local_audio_clock =
        s.start_time_local_audio_clock) ∧
    (∀ (s : EatState) (steps : List (Option TimeM × TimeM)),
      s.last_eat_frame_received_device_audio_clock ≠ none →
      (∀ x ∈ steps, x.1 ≠ none) →
      (handleEatRun s steps).start_time_device_audio_clock =
        s.start_time_device_audio_clock ∧
      (handleEatRun s steps).start_time_local_audio_clock =
        s.start_time_local_audio_clock) ∧
    (∀ (s : EatState) (now1 now2 : TimeM) (p2 : Option TimeM),
      s.last_eat_frame_received_device_audio_clock = none →
      (handleEat s none now1).last_eat_frame_received_device_audio_clock = none ∧
      (handleEat (handleEat s none now1) p2 now2).start_time_device_audio_clock = p2 ∧
      (handleEat (handleEat s none now1) p2 now2).start_time_local_audio_clock =
        some now2) := by
  refine ⟨?_, ?_, ?_⟩
  · intro s pts now h
    exact ⟨(handleEat_of_last_some s pts now h).1, (handleEat_of_last_some s pts now h).2.1⟩
  · intro s steps
    induction steps generalizing s with
    | nil => intro _ _; exact ⟨rfl, rfl⟩
    | cons x rest ih =>
      intro h hall
      have h1 := handleEat_of_last_some s x.1 x.2 h
      have hlast : (handleEat s x.1 x.2).last_eat_frame_received_device_audio_clock ≠
          none := by
        rw [h1.2.2]
        exact hall x (List.mem_cons_self x rest)
      have hrun := ih (handleEat s x.1 x.2) hlast
        (fun y hy => hall y (List.mem_cons_of_mem x hy))
      rw [handleEatRun] at hrun ⊢
      rw [List.foldl_cons]
      exact ⟨hrun.1.trans h1.1, hrun.2.trans h1.2.1⟩
  · intro s now1 now2 p2 h
    have h1 := handleEat_of_last_none s none now1 h
    have h2 := handleEat_of_last_none (handleEat s none now1) p2 now2 (by rw [h1])
    rw [h2, h1]
    exact ⟨rfl, rfl, rfl⟩

def c10Time (k : Nat) : TimeM := ⟨k, 1000000000, 1, 0⟩

def c10Start : EatState := ⟨none, none, none, none⟩

/-- C10, counterexample: the first eat carries an opts timestamp, so it
records the start times; the second eat lacks opts, which resets
last_eat_frame_received_device_audio_clock to None; the third eat then
re-records the start times — they do not stay unchanged across all later
eat packets after an opts-carrying one was handled. -/
theorem c10_start_time_rerecord_counterexample :
    (handleEat c10Start (some (c10Time 1)) (c10Time 10)).start_time_device_audio_clock =
      some (c10Time 1) ∧
    (handleEatRun c10Start
        [(some (c10Time 1), c10Time 10), (none, c10Time 20),
          (some (c10Time 3), c10Time 30)]).start_time_device_audio_clock =
      some (c10Time 3) ∧
    some (c10Time 3) ≠ some (c10Time 1) := by
  exact ⟨by decide, by decide, by decide⟩

theorem c10_eat_start_time_amended_witness :
    ((⟨some (c10Time 1), some (c10Time 10), some (c10Time 1),
        some (c10Time 10)⟩ : EatState).last_eat_frame_received_device_audio_clock ≠
      none ∧
      (handleEat ⟨some (c10Time 1), some (c10Time 10), some (c10Time 1), some (c10Time 10)⟩
          (some (c10Time 2)) (c10Time 20)).start_time_device_audio_clock =
        some (c10Time 1)) ∧
    ((handleEatRun ⟨some (c10Time 1), some (c10Time 10), some (c10Time 1), some (c10Time 10)⟩
        [(some (c10Time 2), c10Time 20), (some (c10Time 3), c10Time 30)]).start_time_device_audio_clock =
      some (c10Time 1)) ∧
    (c10Start.last_eat_frame_received_device_audio_clock = none ∧
      (handleEat (handleEat c10Start none (c10Time 5)) (some (c10Time 6))
          (c10Time 7)).start_time_device_audio_clock = some (c10Time 6)) := by
  refine ⟨⟨by decide, ?_⟩, ?_, by decide, ?_⟩
  · exact (c10_eat_start_time_amended.1 _ (some (c10Time 2)) (c10Time 20) (by decide)).1
  · exact (c10_eat_start_time_amended.2.1 _ _ (by decide) (by decide)).1
  · exact (c10_eat_start_time_amended.2.2 _ (c10Time 5) (c10Time 7) (some (c10Time 6))
      rfl).2.1
